import Mathlib

/-!
Verification of the cozeloop-go span pipeline against its specification.

Strings of the Go source are modelled as lists of byte values (List Nat,
each entry intended to be below 256). Go maps are modelled as association
lists in insertion order, with insert-or-replace semantics. The sources
embedded here are the trace package (span, exporter, span processor) of
the repository; functions of the absent util and consts packages are
modelled from the specification and marked as such in their doc comments.
-/

namespace Cozeloop

/-- Go strings as byte lists. -/
abbrev GoStr := List Nat

/-- Encode an ASCII Lean string literal as a Go byte string. -/
def gs (s : String) : GoStr := s.data.map Char.toNat

/-- Occurrence count of an element in a list. -/
def countOcc {α : Type} [DecidableEq α] (a : α) : List α → Nat
  | [] => 0
  | b :: l => (if b = a then 1 else 0) + countOcc a l

/-- Lookup in a Go map modelled as an association list. -/
def mapLookup {α : Type} : List (GoStr × α) → GoStr → Option α
  | [], _ => none
  | (k', v) :: rest, k => if k' = k then some v else mapLookup rest k

/-- Insert-or-replace in a Go map modelled as an association list:
a present key is overwritten in place, a new key is appended. -/
def mapInsert {α : Type} : List (GoStr × α) → GoStr → α → List (GoStr × α)
  | [], k, v => [(k, v)]
  | (k', v') :: rest, k, v =>
    if k' = k then (k, v) :: rest else (k', v') :: mapInsert rest k v

/-! URL query escaping, as performed by net/url QueryEscape / QueryUnescape
on the baggage keys and values. -/

/-- Bytes QueryEscape leaves unchanged: ASCII alphanumerics and dash, dot,
underscore, tilde. -/
def isUnreservedByte (b : Nat) : Bool :=
  decide ((48 ≤ b ∧ b ≤ 57) ∨ (65 ≤ b ∧ b ≤ 90) ∨ (97 ≤ b ∧ b ≤ 122) ∨
    b = 45 ∨ b = 46 ∨ b = 95 ∨ b = 126)

/-- Upper-case hex digit of a value below 16. -/
def upperHexDigit (n : Nat) : Nat := if n < 10 then 48 + n else 55 + n

/-- Lower-case hex digit of a value below 16 (fmt %x). -/
def lowerHexDigit (n : Nat) : Nat := if n < 10 then 48 + n else 87 + n

/-- Is the byte an ASCII hex digit. -/
def isHexDigitByte (b : Nat) : Bool :=
  decide ((48 ≤ b ∧ b ≤ 57) ∨ (97 ≤ b ∧ b ≤ 102) ∨ (65 ≤ b ∧ b ≤ 70))

/-- Numeric value of a hex digit byte. -/
def hexVal (b : Nat) : Nat :=
  if 48 ≤ b ∧ b ≤ 57 then b - 48 else if 97 ≤ b then b - 87 else b - 55

/-- QueryEscape of one byte: space becomes plus, unreserved bytes stay,
everything else becomes percent and two upper-case hex digits. -/
def escapeByte (b : Nat) : GoStr :=
  if b = 32 then [43]
  else if isUnreservedByte b then [b]
  else [37, upperHexDigit (b / 16), upperHexDigit (b % 16)]

/-- net/url QueryEscape over a byte string. -/
def queryEscape (s : GoStr) : GoStr := (s.map escapeByte).flatten

/-- net/url QueryUnescape: plus becomes space, percent must be followed by
two hex digits, anything else is kept; a malformed percent sequence is an
error (none). -/
def queryUnescape : GoStr → Option GoStr
  | [] => some []
  | b :: rest =>
    if b = 37 then
      match rest with
      | h1 :: h2 :: rest2 =>
        if isHexDigitByte h1 && isHexDigitByte h2 then
          (queryUnescape rest2).map (fun t => (hexVal h1 * 16 + hexVal h2) :: t)
        else none
      | _ => none
    else if b = 43 then (queryUnescape rest).map (fun t => 32 :: t)
    else (queryUnescape rest).map (fun t => b :: t)

/-! Splitting and joining, as performed by strings.Split and the
comma-joined baggage serialisation. -/

/-- strings.Split on a single-byte separator. Split of the empty string is
the singleton list holding the empty string, as in Go. -/
def goSplit (sep : Nat) : GoStr → List GoStr
  | [] => [[]]
  | b :: rest =>
    if b = sep then [] :: goSplit sep rest
    else
      match goSplit sep rest with
      | [] => [[b]]
      | chunk :: more => (b :: chunk) :: more

/-- Bytes trimmed by strings.TrimSpace (ASCII whitespace; the Unicode
cases do not arise for escaped baggage). -/
def isSpaceByte (b : Nat) : Bool :=
  decide (b = 9 ∨ b = 10 ∨ b = 11 ∨ b = 12 ∨ b = 13 ∨ b = 32)

/-- strings.TrimSpace. -/
def trimSpace (s : GoStr) : GoStr :=
  ((s.dropWhile isSpaceByte).reverse.dropWhile isSpaceByte).reverse

/-- Join chunks with a single-byte separator. -/
def joinSep (sep : Nat) : List GoStr → GoStr
  | [] => []
  | [c] => c
  | c :: cs => c ++ sep :: joinSep sep cs

/-! Span context and cross-process propagation headers.
ToHeader writes exactly two headers (parent and baggage); FromHeader reads
them after canonicalising header names. The header map is modelled by its
two relevant values, the parent header value and the baggage header value
(the names of the two headers live in the absent consts package). -/

/-- SpanContext of the trace package: identity plus baggage. -/
structure SpanContextM where
  spanID : GoStr
  traceID : GoStr
  baggage : List (GoStr × GoStr)
deriving DecidableEq, Repr

/-- Modelled from the spec: util.IsValidHexStr is absent from src; the
spec says the parse validates hex, so every byte must be a hex digit. -/
def isValidHexStr (s : GoStr) : Bool := s.all isHexDigitByte

/-- The all-zero id string of a given length (byte 48 is the digit 0). -/
def zeroId (n : Nat) : GoStr := List.replicate n 48

/-- fromHeaderParent: split the parent header on dashes; require exactly
four segments; segment 1 must be a 32-byte non-zero hex trace id and
segment 2 a 16-byte non-zero hex span id; any violation is an error. -/
def fromHeaderParent (h : GoStr) : Option (GoStr × GoStr) :=
  let splits := goSplit 45 h
  if splits.length = 4 then
    let traceIDTemp := splits.getD 1 []
    if traceIDTemp.length = 32 ∧ traceIDTemp ≠ zeroId 32 ∧ isValidHexStr traceIDTemp then
      let spanIDTemp := splits.getD 2 []
      if spanIDTemp.length = 16 ∧ spanIDTemp ≠ zeroId 16 ∧ isValidHexStr spanIDTemp then
        some (traceIDTemp, spanIDTemp)
      else none
    else none
  else none

/-- Loop body of parseCommaSeparatedMap for one comma chunk: trim it and
split on the equals byte; unless it has exactly two parts the map is
unchanged; unescape key then value, and a failed unescape is the early
return of the Go loop (none); otherwise store, overwriting only when
cover is true. -/
def parseCSMStep (cover : Bool) (chunk : GoStr) (acc : List (GoStr × GoStr)) :
    Option (List (GoStr × GoStr)) :=
  let kv := goSplit 61 (trimSpace chunk)
  if kv.length ≠ 2 then some acc
  else
    match queryUnescape (kv.getD 0 []), queryUnescape (kv.getD 1 []) with
    | some k, some v =>
      some (if (mapLookup acc k).isNone || cover then mapInsert acc k v else acc)
    | _, _ => none

/-- Worker loop of parseCommaSeparatedMap: run the loop body on each
chunk; a failed unescape returns the map built so far, dropping all
later chunks. -/
def parseCSMGo (cover : Bool) : List GoStr → List (GoStr × GoStr) → List (GoStr × GoStr)
  | [], acc => acc
  | chunk :: rest, acc =>
    match parseCSMStep cover chunk acc with
    | some acc1 => parseCSMGo cover rest acc1
    | none => acc

/-- parseCommaSeparatedMap of the trace package. -/
def parseCommaSeparatedMap (src : GoStr) (cover : Bool) : List (GoStr × GoStr) :=
  parseCSMGo cover (goSplit 44 src) []

/-- fromHeaderBaggage: tolerant comma-separated parse with overwrite. -/
def fromHeaderBaggage (h : GoStr) : List (GoStr × GoStr) :=
  parseCommaSeparatedMap h true

/-- FromHeader: start from the zero span context; a present parent header
sets the ids only when it parses, otherwise they stay empty; a present
baggage header is parsed tolerantly. -/
def FromHeader (parentHdr baggageHdr : Option GoStr) : SpanContextM :=
  let s0 : SpanContextM := ⟨[], [], []⟩
  let s1 :=
    match parentHdr with
    | some hp =>
      match fromHeaderParent hp with
      | some (t, sp) => { s0 with traceID := t, spanID := sp }
      | none => s0
    | none => s0
  match baggageHdr with
  | some hb => { s1 with baggage := fromHeaderBaggage hb }
  | none => s1

/-- Modelled from the spec: the version byte of the parent header (the
consts package is absent from src); the header format fixes it at zero. -/
def GlobalTraceVersion : Nat := 0

/-- fmt %02x of a byte: two lower-case hex digits. -/
def hexByte (b : Nat) : GoStr := [lowerHexDigit (b / 16), lowerHexDigit (b % 16)]

/-- toHeaderParent: version, trace id, span id and flags joined by
dashes, version and flags rendered as two hex digits each. -/
def toHeaderParent (c : SpanContextM) (flags : Nat) : GoStr :=
  hexByte GlobalTraceVersion ++ 45 :: (c.traceID ++ 45 :: (c.spanID ++ 45 :: hexByte flags))

/-- toHeaderBaggage: the empty map serialises to the empty string; a
non-empty map is comma-joined k=v pairs in map order (the absent
util.MapToStringString is modelled from the spec as this join; entries
are already URL-escaped by SetBaggageItem). -/
def toHeaderBaggage (c : SpanContextM) : GoStr :=
  if c.baggage.isEmpty then []
  else joinSep 44 (c.baggage.map (fun p => p.1 ++ 61 :: p.2))

/-- ToHeader: the pair of header values written by Span.ToHeader. -/
def ToHeader (c : SpanContextM) (flags : Nat) : Option GoStr × Option GoStr :=
  (some (toHeaderParent c flags), some (toHeaderBaggage c))

/-! The span data model and its tag discipline. -/

/-- Runtime values held by tag maps (map of string to the empty
interface in Go). The composite constructor stands for pointer, struct,
map, array and slice values and carries the JSON text the value
serialises to; the strs constructor is the string slice used by the
cut off system tag; the f64 payload is an opaque bit pattern. -/
inductive GoVal where
  | vstr (s : GoStr)
  | vint (n : Int)
  | vi32 (n : Int)
  | vi64 (n : Int)
  | vf64 (bits : Int)
  | vstrs (l : List GoStr)
  | vcomposite (json : GoStr)
deriving DecidableEq, Repr

/-- Runtime types, as dispatched on by reflect.TypeOf. -/
inductive GoType where
  | tString
  | tInt
  | tInt32
  | tInt64
  | tFloat64
  | tStrSlice
  | tComposite
deriving DecidableEq, Repr

/-- reflect.TypeOf. -/
def typeOf : GoVal → GoType
  | .vstr _ => .tString
  | .vint _ => .tInt
  | .vi32 _ => .tInt32
  | .vi64 _ => .tInt64
  | .vf64 _ => .tFloat64
  | .vstrs _ => .tStrSlice
  | .vcomposite _ => .tComposite

/-- Modelled from the spec: the numeric size limits and default status
code of the absent consts package, configurable per §6 of the spec; all
theorems below hold for every instantiation. -/
structure Limits where
  maxValueBytes : Nat
  maxIOBytes : Nat
  maxKeyBytes : Nat
  textTruncateChars : Nat
  maxTagCount : Nat
  statusCodeErrorDefault : Int
deriving DecidableEq, Repr

def keyInput : GoStr := gs "input"
def keyOutput : GoStr := gs "output"
def keyError : GoStr := gs "error"
def keyCutOff : GoStr := gs "cut_off"
def keyRuntime : GoStr := gs "runtime"
def keyUserID : GoStr := gs "user_id"
def keyMessageID : GoStr := gs "message_id"
def keyThreadID : GoStr := gs "thread_id"
def keyInputTokens : GoStr := gs "input_tokens"
def keyOutputTokens : GoStr := gs "output_tokens"
def keyTokens : GoStr := gs "tokens"
def keyStartTimeFirstResp : GoStr := gs "start_time_first_resp"
def keyLatencyFirstResp : GoStr := gs "latency_first_resp"

/-- consts.ReserveFieldTypes: the allowed runtime types of each reserved
field. Exactly the eight keys of internal/consts/vars.go appear; in
particular the map has no entry for the error key or a status code key. -/
def ReserveFieldTypes (k : GoStr) : Option (List GoType) :=
  if k = keyUserID ∨ k = keyMessageID ∨ k = keyThreadID then
    some [.tString]
  else if k = keyInputTokens ∨ k = keyOutputTokens ∨ k = keyTokens ∨
      k = keyStartTimeFirstResp ∨ k = keyLatencyFirstResp then
    some [.tInt64, .tInt, .tInt32]
  else none

/-- isTagValidDataType of the trace package. -/
def isTagValidDataType (k : GoStr) (v : GoVal) : Bool :=
  match ReserveFieldTypes k with
  | none => false
  | some ts => ts.contains (typeOf v)

/-- isCanCutOff: pointers, structs, maps, arrays, slices and strings are
cut-offable. -/
def isCanCutOff (v : GoVal) : Bool :=
  match v with
  | .vstr _ => true
  | .vstrs _ => true
  | .vcomposite _ => true
  | _ => false

/-- Modelled from the spec: util.ToJSON is absent from src; §4.1 says
composite values are serialised to their JSON string while a string is
used as the effective value itself. The composite constructor carries
its serialisation; the string slice is rendered as a bracketed join. -/
def toJSONVal : GoVal → GoStr
  | .vstr s => s
  | .vcomposite j => j
  | .vstrs l => 91 :: joinSep 44 l ++ [93]
  | _ => []

/-- Modelled from the spec: util.TruncateStringByByte is absent from src;
§8 fixes it: a value of exactly the limit is kept, one byte over is cut
to the limit; the Bool reports whether truncation happened. -/
def truncateStringByByte (s : GoStr) (limit : Nat) : GoStr × Bool :=
  if limit < s.length then (s.take limit, true) else (s, false)

/-- Modelled from the spec: util.TruncateStringByChar is absent from src;
§4.3 says the in-span value is replaced by its first
TEXT_TRUNCATE_CHARS characters; bytes stand in for characters here. -/
def truncateStringByChar (s : GoStr) (n : Nat) : GoStr := s.take n

/-- Modelled from the spec: util.RmDupStrSlice is absent from src; the
cut off tag keeps each key once, first occurrence wins. -/
def rmDupStrSlice (l : List GoStr) : List GoStr := l.dedup

/-- Modelled from the spec: util.GetValueOfInt is absent from src; it
reads the numeric value of an integer-family tag and is zero elsewhere. -/
def getValueOfInt : Option GoVal → Int
  | some (.vint n) => n
  | some (.vi32 n) => n
  | some (.vi64 n) => n
  | _ => 0

/-- util.GetTagValueSizeLimit via consts.TagValueSizeLimit: input and
output get the IO limit, every other key the default limit. -/
def getTagValueSizeLimit (L : Limits) (k : GoStr) : Nat :=
  if k = keyInput ∨ k = keyOutput then L.maxIOBytes else L.maxValueBytes

/-- util.GetTagKeySizeLimit. -/
def getTagKeySizeLimit (L : Limits) : Nat := L.maxKeyBytes

/-- The in-memory Span of the trace package. Time stamps are Unix
nanoseconds; the duration is microseconds as set by setStatInfo. -/
structure SpanM where
  spanID : GoStr
  traceID : GoStr
  baggage : List (GoStr × GoStr)
  spanType : GoStr
  name : GoStr
  workspaceID : GoStr
  parentSpanID : GoStr
  startTimeNanos : Int
  durationMicros : Int
  tagMap : List (GoStr × GoVal)
  systemTagMap : List (GoStr × GoVal)
  statusCode : Int
  multiModalityKeys : List GoStr
  ultraLargeReport : Bool
  flags : Nat
  isFinished : Bool
  bytesSize : Int
deriving DecidableEq, Repr

/-- One step of the GetRectifiedMap loop body, threading the accumulated
validate map, cut off keys and byte size in iteration order. -/
def rectifyStep (L : Limits) (s : SpanM)
    (acc : List (GoStr × GoVal) × List GoStr × Int) (key : GoStr) (value : GoVal) :
    List (GoStr × GoVal) × List GoStr × Int :=
  if (ReserveFieldTypes key).isSome ∧ ¬ isTagValidDataType key value then
    acc
  else
    let canCut := isCanCutOff value
    let valueStr := if canCut then toJSONVal value else []
    let value1 := if canCut then GoVal.vstr valueStr else value
    let tv := truncateStringByByte valueStr (getTagValueSizeLimit L key)
    let isUltraLargeReport :=
      tv.2 ∧ key ∉ s.multiModalityKeys ∧ s.ultraLargeReport
    let doTruncate :=
      tv.2 ∧ key ∉ s.multiModalityKeys ∧ ¬ s.ultraLargeReport
    let value2 := if doTruncate then GoVal.vstr tv.1 else value1
    let cut1 := if doTruncate then acc.2.1 ++ [key] else acc.2.1
    let tk := truncateStringByByte key (getTagKeySizeLimit L)
    let cut2 := if tk.2 then cut1 ++ [tk.1] else cut1
    let bytes1 := acc.2.2 + (tk.1.length : Int) +
      (if tk.1 ∉ s.multiModalityKeys ∧ ¬ isUltraLargeReport then
        (valueStr.length : Int) else 0)
    (mapInsert acc.1 tk.1 value2, cut2, bytes1)

/-- GetRectifiedMap of the trace package: type-check reserved keys,
serialise cut-offable values, truncate value and key, and account the
byte size; returns the rectified map, the cut off keys and the size. -/
def GetRectifiedMap (L : Limits) (s : SpanM) (inputMap : List (GoStr × GoVal)) :
    List (GoStr × GoVal) × List GoStr × Int :=
  inputMap.foldl (fun acc kv => rectifyStep L s acc kv.1 kv.2) ([], [], 0)

/-- setCutOffTag: merge the new cut off keys in front of the stored ones
and deduplicate. -/
def setCutOffTag (s : SpanM) (cutOffKeys : List GoStr) : SpanM :=
  let merged :=
    match mapLookup s.systemTagMap keyCutOff with
    | some (.vstrs old) => cutOffKeys ++ old
    | _ => cutOffKeys
  { s with systemTagMap := mapInsert s.systemTagMap keyCutOff (.vstrs (rmDupStrSlice merged)) }

/-- setTagItem: insert the tag only while the tag map is below the
count limit, otherwise drop it with a logged error. -/
def setTagItem (L : Limits) (s : SpanM) (key : GoStr) (value : GoVal) : SpanM :=
  if s.tagMap.length < L.maxTagCount then
    { s with tagMap := mapInsert s.tagMap key value }
  else s

/-- addDefaultTag: an error key forces the default error status code
when the status code is still zero. -/
def addDefaultTag (L : Limits) (s : SpanM) (tagKVs : List (GoStr × GoVal)) : SpanM :=
  tagKVs.foldl
    (fun acc kv =>
      if kv.1 = keyError ∧ acc.statusCode = 0 then
        { acc with statusCode := L.statusCodeErrorDefault }
      else acc)
    s

/-- Span.SetTags on a non-nil span: default tags, rectify, account the
byte size, record cut offs, then insert each rectified entry. -/
def SetTags (L : Limits) (s : SpanM) (tagKVs : List (GoStr × GoVal)) : SpanM :=
  if tagKVs.isEmpty then s
  else
    let s1 := addDefaultTag L s tagKVs
    let r := GetRectifiedMap L s1 tagKVs
    let s2 := { s1 with bytesSize := s1.bytesSize + r.2.2 }
    let s3 := if r.2.1.isEmpty then s2 else setCutOffTag s2 r.2.1
    r.1.foldl (fun acc kv => setTagItem L acc kv.1 kv.2) s3

/-- consts.BaggageSpecialChars: equals and comma. -/
def hasSpecialChar (s : GoStr) : Bool := s.contains 61 || s.contains 44

/-- isValidBaggageItem: size limits and no special characters in the key. -/
def isValidBaggageItem (L : Limits) (k v : GoStr) : Bool :=
  if getTagKeySizeLimit L < k.length ∨ getTagValueSizeLimit L k < v.length then
    false
  else !(hasSpecialChar k)

/-- Span.SetBaggageItem on a non-nil span (the method itself performs no
nil check, see the nil-receiver model below). -/
def SetBaggageItem (s : SpanM) (restrictedKey value : GoStr) : SpanM :=
  { s with baggage := mapInsert s.baggage restrictedKey value }

/-- setBaggage on a non-nil span: each valid item is mirrored into the
tags and stored, escaped when escape is true; invalid items are logged
and dropped. -/
def setBaggage (L : Limits) (s : SpanM) (items : List (GoStr × GoStr)) (escape : Bool) : SpanM :=
  items.foldl
    (fun acc kv =>
      if isValidBaggageItem L kv.1 kv.2 then
        let acc1 := SetTags L acc [(kv.1, .vstr kv.2)]
        if escape then
          SetBaggageItem acc1 (queryEscape kv.1) (queryEscape kv.2)
        else
          SetBaggageItem acc1 kv.1 kv.2
      else acc)
    s

/-- Span.SetBaggage on a non-nil span. -/
def SetBaggage (L : Limits) (s : SpanM) (items : List (GoStr × GoStr)) : SpanM :=
  if items.isEmpty then s else setBaggage L s items true

/-- Modelled from the spec: the serialised SDK runtime system tag
(language, scene, SDK version); its text is irrelevant to the claims. -/
def runtimeTagJSON : GoStr := gs "language=go scene=custom"

/-- setSystemTag: store the serialised runtime descriptor under the
runtime system tag key. -/
def setSystemTag (s : SpanM) : SpanM :=
  { s with systemTagMap := mapInsert s.systemTagMap keyRuntime (.vstr runtimeTagJSON) }

/-- time.Time.UnixMicro: nanoseconds divided by 1000, truncating toward
zero as Go division does. -/
def unixMicro (nanos : Int) : Int := Int.tdiv nanos 1000

/-- setStatInfo at wall-clock time now (Unix nanoseconds): derive the
first-response latency and the token sum when their source tags are
present, then set the duration to now minus start, in microseconds. -/
def setStatInfo (L : Limits) (now : Int) (s : SpanM) : SpanM :=
  let s1 :=
    match mapLookup s.tagMap keyStartTimeFirstResp with
    | some v =>
      SetTags L s [(keyLatencyFirstResp,
        .vi64 (getValueOfInt (some v) - unixMicro s.startTimeNanos))]
    | none => s
  let inTok := mapLookup s.tagMap keyInputTokens
  let outTok := mapLookup s.tagMap keyOutputTokens
  let s2 :=
    if inTok.isSome ∨ outTok.isSome then
      SetTags L s1 [(keyTokens, .vi64 (getValueOfInt inTok + getValueOfInt outTok))]
    else s1
  { s2 with durationMicros := unixMicro now - unixMicro s.startTimeNanos }

/-- A span together with the list of spans handed to the processor by
OnSpanEnd, in call order. -/
structure FinState where
  span : SpanM
  onSpanEndCalls : List SpanM
deriving DecidableEq, Repr

/-- Span.Finish on a non-nil span at wall-clock time now: the
compare-and-set of the finished flag guards everything; on the first
call the system tag and stat info are set and the span is handed to the
processor, every later call returns immediately. -/
def Finish (L : Limits) (now : Int) (st : FinState) : FinState :=
  if st.span.isFinished then st
  else
    let s1 := { st.span with isFinished := true }
    let s2 := setStatInfo L now (setSystemTag s1)
    { span := s2, onSpanEndCalls := st.onSpanEndCalls ++ [s2] }

/-! The attachment extractor: splitting a finished span into an upload
span and its upload files. -/

/-- entity.UploadType. -/
inductive UploadType where
  | long
  | multiModality
deriving DecidableEq, Repr

/-- UploadFile of the trace package. -/
structure UploadFileM where
  tosKey : GoStr
  data : GoStr
  uploadType : UploadType
  tagKey : GoStr
  name : GoStr
  fileType : GoStr
  spaceID : GoStr
deriving DecidableEq, Repr

/-- tracespec.ModelImageURL (name, url, detail). -/
structure ModelImageURLM where
  name : GoStr
  url : GoStr
  detail : GoStr
deriving DecidableEq, Repr

/-- tracespec.ModelFileURL (name, url, detail, suffix). -/
structure ModelFileURLM where
  name : GoStr
  url : GoStr
  detail : GoStr
  suffix : GoStr
deriving DecidableEq, Repr

/-- tracespec.ModelMessagePart: a part type string (text, image or
file), the text, and optional image and file descriptors. -/
structure ModelMessagePartM where
  partType : GoStr
  text : GoStr
  imageURL : Option ModelImageURLM
  fileURL : Option ModelFileURLM
deriving DecidableEq, Repr

/-- tracespec.ModelMessage, restricted to the parts the extractor walks. -/
structure ModelMessageM where
  parts : List (Option ModelMessagePartM)
deriving DecidableEq, Repr

/-- tracespec.ModelInput, restricted to its messages. -/
structure ModelInputM where
  messages : List ModelMessageM
deriving DecidableEq, Repr

/-- tracespec.ModelChoice: an optional message. -/
structure ModelChoiceM where
  message : Option ModelMessageM
deriving DecidableEq, Repr

/-- tracespec.ModelOutput, restricted to its choices. -/
structure ModelOutputM where
  choices : List (Option ModelChoiceM)
deriving DecidableEq, Repr

/-- The object_storage attachment entry. -/
structure AttachmentM where
  field : GoStr
  name : GoStr
  fileType : GoStr
  tosKey : GoStr
deriving DecidableEq, Repr

/-- The object_storage descriptor. -/
structure ObjectStorageM where
  inputTosKey : GoStr
  outputTosKey : GoStr
  attachments : List AttachmentM
deriving DecidableEq, Repr

/-- The helpers the extractor takes from outside the repository: URL
validation, base64 decoding and random id generation of the absent util
package (ids are drawn from a stream indexed by a call counter), JSON
encoding and decoding of the Go standard library, and the default
stringification of parseTag. All claims are proved for every such
environment. -/
structure ExtractEnv where
  isValidURL : GoStr → Bool
  parseValidMDNBase64 : GoStr → Option GoStr
  base64Decode : GoStr → GoStr
  genIDs : Nat → GoStr
  unmarshalInput : GoStr → Option ModelInputM
  unmarshalOutput : GoStr → Option ModelOutputM
  marshalInput : ModelInputM → Option GoStr
  marshalOutput : ModelOutputM → Option GoStr
  marshalObjectStorage : ObjectStorageM → Option GoStr
  stringify : GoVal → GoStr

/-- fmt %v formatting of a tag value: a string formats as itself, other
values through the environment stringifier. -/
def formatV (env : ExtractEnv) : GoVal → GoStr
  | .vstr s => s
  | v => env.stringify v

def underscore : GoStr := [95]

def fileTypeText : GoStr := gs "text"
def fileTypeImage : GoStr := gs "image"
def fileTypeFile : GoStr := gs "file"

/-- KeyTemplateLargeText rendered: trace, span, tag key and file type
joined by underscores, with the large_text suffix. -/
def largeTextKey (s : SpanM) (tagKey : GoStr) : GoStr :=
  s.traceID ++ underscore ++ s.spanID ++ underscore ++ tagKey ++ underscore ++
    fileTypeText ++ gs "_large_text"

/-- KeyTemplateMultiModality rendered: trace, span, tag key, file type
and a generated random id joined by underscores. -/
def multiModalityKey (s : SpanM) (tagKey fileType randomID : GoStr) : GoStr :=
  s.traceID ++ underscore ++ s.spanID ++ underscore ++ tagKey ++ underscore ++
    fileType ++ underscore ++ randomID

/-- transferText: empty content passes through; without ultra-large
reporting the content passes through; content over the IO byte limit is
replaced by its first TEXT_TRUNCATE_CHARS characters and emitted whole
as a LONG_TEXT upload file under the large-text key; otherwise it passes
through. -/
def transferText (L : Limits) (src : GoStr) (s : SpanM) (tagKey : GoStr) :
    GoStr × Option UploadFileM :=
  if src.length = 0 then ([], none)
  else if ¬ s.ultraLargeReport then (src, none)
  else if L.maxIOBytes < src.length then
    (truncateStringByChar src L.textTruncateChars,
      some { tosKey := largeTextKey s tagKey, data := src, uploadType := .long,
             tagKey := tagKey, name := [], fileType := fileTypeText,
             spaceID := s.workspaceID })
  else (src, none)

/-- transferImage at random-id counter c: a nil descriptor or a valid
external URL produces no file; otherwise the URL is replaced by a fresh
multimodality key and the base64-decoded payload becomes a MULTIMODAL
upload file. Returns the file, the updated descriptor and the counter. -/
def transferImage (env : ExtractEnv) (c : Nat) (src : Option ModelImageURLM)
    (s : SpanM) (tagKey : GoStr) : Option UploadFileM × Option ModelImageURLM × Nat :=
  match src with
  | none => (none, none, c)
  | some u =>
    if env.isValidURL u.url then (none, some u, c)
    else
      let key := multiModalityKey s tagKey fileTypeImage (env.genIDs c)
      (some { tosKey := key, data := env.base64Decode u.url,
              uploadType := .multiModality, tagKey := tagKey, name := u.name,
              fileType := fileTypeImage, spaceID := s.workspaceID },
       some { u with url := key }, c + 1)

/-- transferFile, the file analogue of transferImage. -/
def transferFile (env : ExtractEnv) (c : Nat) (src : Option ModelFileURLM)
    (s : SpanM) (tagKey : GoStr) : Option UploadFileM × Option ModelFileURLM × Nat :=
  match src with
  | none => (none, none, c)
  | some u =>
    if env.isValidURL u.url then (none, some u, c)
    else
      let key := multiModalityKey s tagKey fileTypeFile (env.genIDs c)
      (some { tosKey := key, data := env.base64Decode u.url,
              uploadType := .multiModality, tagKey := tagKey, name := u.name,
              fileType := fileTypeFile, spaceID := s.workspaceID },
       some { u with url := key }, c + 1)

/-- transferMessagePart: dispatch on the part type; only non-nil files
are appended to the result; text and unknown parts yield nothing. The
updated part (with rewritten URLs) is returned alongside. -/
def transferMessagePart (env : ExtractEnv) (c : Nat) (src : Option ModelMessagePartM)
    (s : SpanM) (tagKey : GoStr) :
    List UploadFileM × Option ModelMessagePartM × Nat :=
  match src with
  | none => ([], none, c)
  | some p =>
    if p.partType = fileTypeImage then
      let r := transferImage env c p.imageURL s tagKey
      (r.1.toList, some { p with imageURL := r.2.1 }, r.2.2)
    else if p.partType = fileTypeFile then
      let r := transferFile env c p.fileURL s tagKey
      (r.1.toList, some { p with fileURL := r.2.1 }, r.2.2)
    else ([], some p, c)

/-- Walk the parts of one message in order, threading the id counter. -/
def transferParts (env : ExtractEnv) (s : SpanM) (tagKey : GoStr) :
    Nat → List (Option ModelMessagePartM) →
    List UploadFileM × List (Option ModelMessagePartM) × Nat
  | c, [] => ([], [], c)
  | c, p :: rest =>
    let r := transferMessagePart env c p s tagKey
    let rr := transferParts env s tagKey r.2.2 rest
    (r.1 ++ rr.1, r.2.1 :: rr.2.1, rr.2.2)

/-- Walk the messages of a ModelInput in order. -/
def transferMessages (env : ExtractEnv) (s : SpanM) (tagKey : GoStr) :
    Nat → List ModelMessageM → List UploadFileM × List ModelMessageM × Nat
  | c, [] => ([], [], c)
  | c, m :: rest =>
    let r := transferParts env s tagKey c m.parts
    let rr := transferMessages env s tagKey r.2.2 rest
    (r.1 ++ rr.1, ⟨r.2.1⟩ :: rr.2.1, rr.2.2)

/-- Walk the choices of a ModelOutput in order; nil choices and choices
without a message are skipped untouched. -/
def transferChoices (env : ExtractEnv) (s : SpanM) (tagKey : GoStr) :
    Nat → List (Option ModelChoiceM) →
    List UploadFileM × List (Option ModelChoiceM) × Nat
  | c, [] => ([], [], c)
  | c, ch :: rest =>
    match ch with
    | none =>
      let rr := transferChoices env s tagKey c rest
      (rr.1, none :: rr.2.1, rr.2.2)
    | some choice =>
      match choice.message with
      | none =>
        let rr := transferChoices env s tagKey c rest
        (rr.1, some choice :: rr.2.1, rr.2.2)
      | some msg =>
        let r := transferParts env s tagKey c msg.parts
        let rr := transferChoices env s tagKey r.2.2 rest
        (r.1 ++ rr.1, some ⟨some ⟨r.2.1⟩⟩ :: rr.2.1, rr.2.2)

/-- convertInput at random-id counter c. A missing tag yields the empty
result. A plain-text value goes through transferText and a produced file
is appended only when non-nil. A multimodality value is decoded (a
non-string value decodes to the empty structure, a string that fails to
decode is an error), its parts are walked, and the re-serialised value
is sent through transferText again when it is still over the IO limit;
files produced there are appended only when non-nil. -/
def convertInput (env : ExtractEnv) (L : Limits) (c : Nat) (spanKey : GoStr)
    (s : SpanM) : Option (GoStr × List (Option UploadFileM) × Nat) :=
  match mapLookup s.tagMap spanKey with
  | none => some ([], [], c)
  | some value =>
    if spanKey ∉ s.multiModalityKeys then
      let r := transferText L (formatV env value) s spanKey
      match r.2 with
      | some f => some (r.1, [some f], c)
      | none => some (r.1, [], c)
    else
      let decoded : Option ModelInputM :=
        match value with
        | .vstr tempV => env.unmarshalInput tempV
        | _ => some ⟨[]⟩
      match decoded with
      | none => none
      | some mi =>
        let w := transferMessages env s spanKey c mi.messages
        match env.marshalInput ⟨w.2.1⟩ with
        | none => none
        | some valueRes =>
          if L.maxIOBytes < valueRes.length then
            let r := transferText L valueRes s spanKey
            match r.2 with
            | some f => some (r.1, w.1.map some ++ [some f], w.2.2)
            | none => some (r.1, w.1.map some, w.2.2)
          else some (valueRes, w.1.map some, w.2.2)

/-- convertOutput at random-id counter c. Identical to convertInput over
ModelOutput, except that in the plain-text branch the transferText file
is appended without a nil check. -/
def convertOutput (env : ExtractEnv) (L : Limits) (c : Nat) (spanKey : GoStr)
    (s : SpanM) : Option (GoStr × List (Option UploadFileM) × Nat) :=
  match mapLookup s.tagMap spanKey with
  | none => some ([], [], c)
  | some value =>
    if spanKey ∉ s.multiModalityKeys then
      let r := transferText L (formatV env value) s spanKey
      some (r.1, [r.2], c)
    else
      let decoded : Option ModelOutputM :=
        match value with
        | .vstr tempV => env.unmarshalOutput tempV
        | _ => some ⟨[]⟩
      match decoded with
      | none => none
      | some mo =>
        let w := transferChoices env s spanKey c mo.choices
        match env.marshalOutput ⟨w.2.1⟩ with
        | none => none
        | some valueRes =>
          if L.maxIOBytes < valueRes.length then
            let r := transferText L valueRes s spanKey
            match r.2 with
            | some f => some (r.1, w.1.map some ++ [some f], w.2.2)
            | none => some (r.1, w.1.map some, w.2.2)
          else some (valueRes, w.1.map some, w.2.2)

/-- parseInputOutput: run the input converter then the output converter
over the keys present in the tag map (the Go iteration order over the
two-entry converter map is unspecified; the input-first order is fixed
here), concatenating their files and collecting the new values; an error
in either converter fails the whole span. -/
def parseInputOutput (env : ExtractEnv) (L : Limits) (s : SpanM) :
    Option (List (Option UploadFileM) × List (GoStr × GoStr)) :=
  let step1 :=
    if (mapLookup s.tagMap keyInput).isSome then
      match convertInput env L 0 keyInput s with
      | none => none
      | some (v, fs, c) => some (fs, [(keyInput, v)], c)
    else some ([], [], 0)
  match step1 with
  | none => none
  | some (fs1, cm1, c1) =>
    if (mapLookup s.tagMap keyOutput).isSome then
      match convertOutput env L c1 keyOutput s with
      | none => none
      | some (v, fs, _) => some (fs1 ++ fs, mapInsert cm1 keyOutput v)
    else some (fs1, cm1)

/-- transferObjectStorage: fold the non-nil upload files into the
object_storage descriptor; LONG_TEXT files fill the input or output TOS
key, MULTIMODAL files append an attachment entry; when no non-nil file
exists, or serialisation fails, the result is the empty string. -/
def osStep (acc : ObjectStorageM × Bool) (fo : Option UploadFileM) :
    ObjectStorageM × Bool :=
  match fo with
  | none => acc
  | some f =>
    match f.uploadType with
    | .long =>
      if f.tagKey = keyInput then
        ({ acc.1 with inputTosKey := f.tosKey }, true)
      else if f.tagKey = keyOutput then
        ({ acc.1 with outputTosKey := f.tosKey }, true)
      else (acc.1, true)
    | .multiModality =>
      ({ acc.1 with attachments := acc.1.attachments ++
          [⟨f.tagKey, f.name, f.fileType, f.tosKey⟩] }, true)

def transferObjectStorage (env : ExtractEnv) (spanUploadFile : List (Option UploadFileM)) :
    GoStr :=
  let r := spanUploadFile.foldl osStep (⟨[], [], []⟩, false)
  if ¬ r.2 then []
  else
    match env.marshalObjectStorage r.1 with
    | none => []
    | some s => s

/-- parseTag: dispatch every tag except input and output on its runtime
type into the string, long and double maps; integer families go to long,
float families to double, strings to string, and anything else is
stringified into the string map. -/
def parseTag (env : ExtractEnv) (spanTag : List (GoStr × GoVal)) :
    List (GoStr × GoStr) × List (GoStr × Int) × List (GoStr × Int) :=
  spanTag.foldl
    (fun acc kv =>
      if kv.1 = keyInput ∨ kv.1 = keyOutput then acc
      else
        match kv.2 with
        | .vstr v => (mapInsert acc.1 kv.1 v, acc.2.1, acc.2.2)
        | .vint n => (acc.1, mapInsert acc.2.1 kv.1 n, acc.2.2)
        | .vi32 n => (acc.1, mapInsert acc.2.1 kv.1 n, acc.2.2)
        | .vi64 n => (acc.1, mapInsert acc.2.1 kv.1 n, acc.2.2)
        | .vf64 bits => (acc.1, acc.2.1, mapInsert acc.2.2 kv.1 bits)
        | v => (mapInsert acc.1 kv.1 (env.stringify v), acc.2.1, acc.2.2))
    ([], [], [])

/-- UploadSpan, the export projection of a span. -/
structure UploadSpanM where
  startedATMicros : Int
  spanID : GoStr
  parentID : GoStr
  traceID : GoStr
  duration : Int
  workspaceID : GoStr
  spanName : GoStr
  spanType : GoStr
  statusCode : Int
  input : GoStr
  output : GoStr
  objectStorage : GoStr
  systemTagsString : List (GoStr × GoStr)
  systemTagsLong : List (GoStr × Int)
  systemTagsDouble : List (GoStr × Int)
  tagsString : List (GoStr × GoStr)
  tagsLong : List (GoStr × Int)
  tagsDouble : List (GoStr × Int)
deriving DecidableEq, Repr

/-- transferToUploadSpanAndFile: per span, extract input and output
(skipping the span on error), build the object storage descriptor,
append the files (nil entries included) and project the remaining tags
into the upload span. -/
def transferToUploadSpanAndFile (env : ExtractEnv) (L : Limits) (spans : List SpanM) :
    List UploadSpanM × List (Option UploadFileM) :=
  spans.foldl
    (fun acc span =>
      match parseInputOutput env L span with
      | none => acc
      | some (files, contentMap) =>
        let objectStorage := transferObjectStorage env files
        let t := parseTag env span.tagMap
        let st := parseTag env span.systemTagMap
        (acc.1 ++ [{
            startedATMicros := unixMicro span.startTimeNanos,
            spanID := span.spanID,
            parentID := span.parentSpanID,
            traceID := span.traceID,
            duration := span.durationMicros,
            workspaceID := span.workspaceID,
            spanName := span.name,
            spanType := span.spanType,
            statusCode := span.statusCode,
            input := (mapLookup contentMap keyInput).getD [],
            output := (mapLookup contentMap keyOutput).getD [],
            objectStorage := objectStorage,
            systemTagsString := st.1,
            systemTagsLong := st.2.1,
            systemTagsDouble := st.2.2,
            tagsString := t.1,
            tagsLong := t.2.1,
            tagsDouble := t.2.2 }],
         acc.2 ++ files))
    ([], [])

/-- SpanExporter.ExportFiles with a per-file success oracle: nil files
are skipped; each non-nil file is uploaded in order until the first
failure, which aborts the loop with an error. Returns the attempted
uploads in order and whether an error was returned. -/
def ExportFiles (ok : UploadFileM → Bool) : List (Option UploadFileM) → List UploadFileM × Bool
  | [] => ([], false)
  | none :: rest => ExportFiles ok rest
  | some f :: rest =>
    if ok f then
      let r := ExportFiles ok rest
      (f :: r.1, r.2)
    else ([f], true)

/-- The enqueue effect of one run of the span export function built by
newExportSpansFunc: the batch is extracted; an empty upload list makes
the POST a success without network traffic; on POST failure every
source span is enqueued to the retry queue when one is wired; on success
every non-nil file is enqueued to the file queue when one is wired. The
first component lists the span-retry enqueues, the second the file
enqueues (as the enqueued pointers). -/
def newExportSpansFunc (env : ExtractEnv) (L : Limits)
    (hasRetryQueue hasFileQueue : Bool) (postOK : Bool) (batch : List SpanM) :
    List SpanM × List (Option UploadFileM) :=
  let r := transferToUploadSpanAndFile env L batch
  let exportOK := r.1.isEmpty || postOK
  if ¬ exportOK then
    (if hasRetryQueue then batch else [], [])
  else
    ([], if hasFileQueue then (r.2.filterMap id).map some else [])

/-! Pipeline wiring: the four queues of NewBatchSpanProcessor and the
retry topology of their export functions. Queue items are tracked by
identity (Go pointer identity, modelled as allocation numbers). -/

/-- The four queues built by NewBatchSpanProcessor. -/
inductive QId where
  | span
  | spanRetry
  | file
  | fileRetry
deriving DecidableEq, Repr

/-- The retry target each queue's export function is constructed with:
the span queue retries into the span-retry queue, the file queue into
the file-retry queue, and both retry queues are constructed with a nil
retry target (newExportSpansFunc with a nil spanRetryQueue,
newExportFilesFunc with a nil fileRetryQueue). -/
def retryTargetOf : QId → Option QId
  | .span => some .spanRetry
  | .spanRetry => none
  | .file => some .fileRetry
  | .fileRetry => none

/-- The file queue each span export function feeds on success: both the
span queue and the span-retry queue are wired to the file queue. -/
def fileTargetOf : QId → Option QId
  | .span => some .file
  | .spanRetry => some .file
  | _ => none

/-- Queue constants of the batch span processor. -/
def DefaultMaxQueueLength : Nat := 2048
def DefaultMaxExportBatchLength : Nat := 512
def DefaultMaxExportBatchByteSize : Nat := 4 * 1024 * 1024
def MaxRetryExportBatchLength : Nat := 50
def DefaultScheduleDelay : Nat := 1000
def MaxFileQueueLength : Nat := 512
def MaxFileExportBatchLength : Nat := 5
def MaxFileExportBatchByteSize : Nat := 100 * 1024 * 1024
def FileScheduleDelay : Nat := 5000

/-- Pipeline state: the contents of the four queues (span ids in the two
span queues, file ids in the two file queues), the source spans of every
ingest POST issued so far (one entry per span occurrence in a posted
batch), the files attempted for upload so far (one entry per upload
call), and the allocation counter for fresh file ids. -/
structure PState where
  spanQ : List Nat
  spanRetryQ : List Nat
  fileQ : List Nat
  fileRetryQ : List Nat
  posted : List Nat
  uploaded : List Nat
  nextFile : Nat
deriving DecidableEq, Repr

/-- Append items to the queue named by an optional target; a nil target
drops them. -/
def enqTo (t : Option QId) (st : PState) (items : List Nat) : PState :=
  match t with
  | none => st
  | some .span => { st with spanQ := st.spanQ ++ items }
  | some .spanRetry => { st with spanRetryQ := st.spanRetryQ ++ items }
  | some .file => { st with fileQ := st.fileQ ++ items }
  | some .fileRetry => { st with fileRetryQ := st.fileRetryQ ++ items }

/-- Read the contents of a queue. -/
def getQ (st : PState) : QId → List Nat
  | .span => st.spanQ
  | .spanRetry => st.spanRetryQ
  | .file => st.fileQ
  | .fileRetry => st.fileRetryQ

/-- Remove the first n items of a queue. -/
def dropQ (st : PState) (q : QId) (n : Nat) : PState :=
  match q with
  | .span => { st with spanQ := st.spanQ.drop n }
  | .spanRetry => { st with spanRetryQ := st.spanRetryQ.drop n }
  | .file => { st with fileQ := st.fileQ.drop n }
  | .fileRetry => { st with fileRetryQ := st.fileRetryQ.drop n }

/-- One run of the export function of a span queue q: a batch of n items
leaves q and is extracted and POSTed; the extractor allocates k fresh
upload files. On POST failure the source batch goes to the retry target
of q (dropped when the target is nil) and no file is enqueued; on
success the fresh files go to the file target of q. -/
def spanExportStep (q : QId) (n k : Nat) (ok : Bool) (st : PState) : PState :=
  let batch := (getQ st q).take n
  let st1 := { dropQ st q n with
    posted := st.posted ++ batch, nextFile := st.nextFile + k }
  if ok then enqTo (fileTargetOf q) st1 (List.range' st.nextFile k)
  else enqTo (retryTargetOf q) st1 batch

/-- One run of the export function of a file queue q: a batch of n items
leaves q and is uploaded file by file; on success all are attempted; on
failure the files up to and including the failing one (position i) were
attempted and the whole batch goes to the retry target of q (dropped
when the target is nil). -/
def fileExportStep (q : QId) (n i : Nat) (ok : Bool) (st : PState) : PState :=
  let batch := (getQ st q).take n
  let attempted := if ok then batch else batch.take (i + 1)
  let st1 := { dropQ st q n with uploaded := st.uploaded ++ attempted }
  if ok then st1 else enqTo (retryTargetOf q) st1 batch

/-- The schedulable pipeline actions: a batch export on each queue, with
the oracle choices (batch size, fresh-file count or failure position,
POST outcome) as data. -/
inductive Act where
  | exportSpanBatch (n k : Nat) (ok : Bool)
  | exportSpanRetryBatch (n k : Nat) (ok : Bool)
  | exportFileBatch (n i : Nat) (ok : Bool)
  | exportFileRetryBatch (n i : Nat) (ok : Bool)
deriving DecidableEq, Repr

/-- Apply one action, using the wiring of NewBatchSpanProcessor. -/
def applyAct : Act → PState → PState
  | .exportSpanBatch n k ok, st => spanExportStep .span n k ok st
  | .exportSpanRetryBatch n k ok, st => spanExportStep .spanRetry n k ok st
  | .exportFileBatch n i ok, st => fileExportStep .file n i ok st
  | .exportFileRetryBatch n i ok, st => fileExportStep .fileRetry n i ok st

/-- One pipeline step: some action fires. -/
def PStep (st st' : PState) : Prop := ∃ a : Act, applyAct a st = st'

/-- Reachability of the pipeline. -/
def PReach (st st' : PState) : Prop := Relation.ReflTransGen PStep st st'

/-- The pipeline invariant: each span can be POSTed at most twice more
than its queue occupancy allows, each file uploaded at most twice, and
every file id at or above the allocation counter is fresh. -/
def PInv (st : PState) : Prop :=
  (∀ x, countOcc x st.posted + 2 * countOcc x st.spanQ + countOcc x st.spanRetryQ ≤ 2) ∧
  (∀ y, countOcc y st.uploaded + 2 * countOcc y st.fileQ + countOcc y st.fileRetryQ ≤ 2) ∧
  (∀ y, st.nextFile ≤ y →
    countOcc y st.uploaded = 0 ∧ countOcc y st.fileQ = 0 ∧ countOcc y st.fileRetryQ = 0)

/-- The initial pipeline state over a span queue load. -/
def pInit (spans : List Nat) : PState :=
  { spanQ := spans, spanRetryQ := [], fileQ := [], fileRetryQ := [],
    posted := [], uploaded := [], nextFile := 0 }

/-! Nil-receiver behaviour of the exported methods. A method receiver is
an Option (none standing for the Go nil pointer); a method body that
dereferences a nil receiver panics at runtime. -/

/-- Outcome of calling a Go method: a value, or a runtime panic. -/
inductive GoResult (α : Type) where
  | ok (a : α)
  | crash
deriving DecidableEq, Repr

namespace Meth

/-- Span.SetTags: nil-checked, a nil receiver is a no-op. -/
def MSetTags (L : Limits) : Option SpanM → List (GoStr × GoVal) → GoResult (Option SpanM)
  | none, _ => .ok none
  | some s, kvs => .ok (some (SetTags L s kvs))

/-- Span.SetBaggage: nil-checked. -/
def MSetBaggage (L : Limits) : Option SpanM → List (GoStr × GoStr) → GoResult (Option SpanM)
  | none, _ => .ok none
  | some s, items => .ok (some (SetBaggage L s items))

/-- Span.SetError: nil-checked; delegates to SetTags on the error key. -/
def MSetError (L : Limits) : Option SpanM → GoStr → GoResult (Option SpanM)
  | none, _ => .ok none
  | some s, msg => .ok (some (SetTags L s [(keyError, .vstr msg)]))

/-- Span.SetStatusCode: nil-checked. -/
def MSetStatusCode : Option SpanM → Int → GoResult (Option SpanM)
  | none, _ => .ok none
  | some s, code => .ok (some { s with statusCode := code })

/-- Span.SetUserID: nil-checked; delegates to SetTags. -/
def MSetUserID (L : Limits) : Option SpanM → GoStr → GoResult (Option SpanM)
  | none, _ => .ok none
  | some s, uid => .ok (some (SetTags L s [(keyUserID, .vstr uid)]))

/-- Span.SetInputTokens: nil-checked; delegates to SetTags with an int. -/
def MSetInputTokens (L : Limits) : Option SpanM → Int → GoResult (Option SpanM)
  | none, _ => .ok none
  | some s, n => .ok (some (SetTags L s [(keyInputTokens, .vint n)]))

/-- Span.SetBaggageItem: the body has no nil check and locks the
receiver, so a nil receiver panics. -/
def MSetBaggageItem : Option SpanM → GoStr → GoStr → GoResult SpanM
  | none, _, _ => .crash
  | some s, k, v => .ok (SetBaggageItem s k v)

/-- Span.SetMultiModalityMap: the body has no nil check and locks the
receiver, so a nil receiver panics. -/
def MSetMultiModalityMap : Option SpanM → GoStr → GoResult SpanM
  | none, _ => .crash
  | some s, key =>
    .ok (if key ∈ s.multiModalityKeys then s
         else { s with multiModalityKeys := s.multiModalityKeys ++ [key] })

/-- Span.GetRectifiedMap: exported and without a nil check, but the
receiver is dereferenced only inside the per-entry loop (the
multimodality-map reads), and an entry rejected by the reserved-type
check is skipped before any dereference. So a nil receiver panics
exactly when some entry of the input map survives the type check; with
an empty map, or one whose entries are all rejected, the call returns
the empty result normally. -/
def MGetRectifiedMap (L : Limits) : Option SpanM → List (GoStr × GoVal) →
    GoResult (List (GoStr × GoVal) × List GoStr × Int)
  | none, m =>
    if m.all (fun kv => (ReserveFieldTypes kv.1).isSome && ! isTagValidDataType kv.1 kv.2) then
      .ok ([], [], 0)
    else .crash
  | some s, m => .ok (GetRectifiedMap L s m)

/-- Span.Finish: nil-checked, a nil receiver is a no-op and delivers
nothing. -/
def MFinish (L : Limits) (now : Int) : Option FinState → GoResult (Option FinState)
  | none => .ok none
  | some st => .ok (some (Finish L now st))

/-- Span.GetParentID: nil-checked, empty on nil. -/
def MGetParentID : Option SpanM → GoResult GoStr
  | none => .ok []
  | some s => .ok s.parentSpanID

/-- Span.GetTagMap: nil-checked, nil map on nil. -/
def MGetTagMap : Option SpanM → GoResult (List (GoStr × GoVal))
  | none => .ok []
  | some s => .ok s.tagMap

/-- Span.GetDuration: nil-checked, zero on nil. -/
def MGetDuration : Option SpanM → GoResult Int
  | none => .ok 0
  | some s => .ok s.durationMicros

/-- Span.GetSpaceID: nil-checked, empty on nil. -/
def MGetSpaceID : Option SpanM → GoResult GoStr
  | none => .ok []
  | some s => .ok s.workspaceID

/-- Span.GetSpanName: nil-checked, empty on nil. -/
def MGetSpanName : Option SpanM → GoResult GoStr
  | none => .ok []
  | some s => .ok s.name

/-- Span.GetSpanType: nil-checked, empty on nil. -/
def MGetSpanType : Option SpanM → GoResult GoStr
  | none => .ok []
  | some s => .ok s.spanType

/-- Span.GetStatusCode: nil-checked, zero on nil. -/
def MGetStatusCode : Option SpanM → GoResult Int
  | none => .ok 0
  | some s => .ok s.statusCode

/-- Span.UltraLargeReport: nil-checked, false on nil. -/
def MUltraLargeReport : Option SpanM → GoResult Bool
  | none => .ok false
  | some s => .ok s.ultraLargeReport

/-- Span.GetStartTime: nil-checked, the zero time on nil. -/
def MGetStartTime : Option SpanM → GoResult Int
  | none => .ok 0
  | some s => .ok s.startTimeNanos

/-- Span.ToHeader: nil-checked, a nil receiver returns nil headers. -/
def MToHeader : Option SpanContextM → Nat → GoResult (Option GoStr × Option GoStr)
  | none, _ => .ok (none, none)
  | some c, flags => .ok (ToHeader c flags)

/-- SpanContext.GetSpanID: the body has no nil check and reads a field,
so a nil receiver panics. -/
def MGetSpanID : Option SpanContextM → GoResult GoStr
  | none => .crash
  | some c => .ok c.spanID

/-- SpanContext.GetTraceID: no nil check, a nil receiver panics. -/
def MGetTraceID : Option SpanContextM → GoResult GoStr
  | none => .crash
  | some c => .ok c.traceID

/-- SpanContext.GetBaggage: no nil check, a nil receiver panics. -/
def MGetBaggage : Option SpanContextM → GoResult (List (GoStr × GoStr))
  | none => .crash
  | some c => .ok c.baggage

end Meth

/-! Sample instantiations used by concrete evaluations: a limits record
with the default sizes of the spec (the IO limit at its 1 MiB minimum),
and an environment with fixed oracles. -/

/-- Sample limits: the spec defaults. -/
def L0 : Limits :=
  { maxValueBytes := 1024, maxIOBytes := 1048576, maxKeyBytes := 1024,
    textTruncateChars := 1000, maxTagCount := 50, statusCodeErrorDefault := -1 }

/-- Sample extraction environment. -/
def env0 : ExtractEnv :=
  { isValidURL := fun _ => false,
    parseValidMDNBase64 := fun _ => none,
    base64Decode := fun s => s,
    genIDs := fun _ => gs "0123456789abcdef",
    unmarshalInput := fun _ => none,
    unmarshalOutput := fun _ => none,
    marshalInput := fun _ => some (gs "mi"),
    marshalOutput := fun _ => some (gs "mo"),
    marshalObjectStorage := fun _ => some (gs "os"),
    stringify := fun _ => gs "value" }

/-- A sample span with empty maps. -/
def span0 : SpanM :=
  { spanID := gs "f0e1d2c3b4a59687", traceID := gs "0123456789abcdef0123456789abcdef",
    baggage := [], spanType := gs "custom", name := gs "root",
    workspaceID := gs "ws1", parentSpanID := gs "0",
    startTimeNanos := 1000000000, durationMicros := 0,
    tagMap := [], systemTagMap := [], statusCode := 0,
    multiModalityKeys := [], ultraLargeReport := false, flags := 0,
    isFinished := false, bytesSize := 0 }

/-- The span fields SetTags never writes (everything except the tag map,
the system tag map, the status code and the byte size), bundled so that
preservation is one equation. -/
def tagFrame (s : SpanM) :
    GoStr × GoStr × List (GoStr × GoStr) × GoStr × GoStr × GoStr × GoStr ×
    Int × Int × List GoStr × Bool × Nat × Bool :=
  (s.spanID, s.traceID, s.baggage, s.spanType, s.name, s.workspaceID,
   s.parentSpanID, s.startTimeNanos, s.durationMicros, s.multiModalityKeys,
   s.ultraLargeReport, s.flags, s.isFinished)

/-- A sample span carrying a short plain-text output tag. -/
def spanOut0 : SpanM := { span0 with tagMap := [(keyOutput, .vstr (gs "hi"))] }

/-- A sample span carrying a short plain-text input tag. -/
def spanIn0 : SpanM := { span0 with tagMap := [(keyInput, .vstr (gs "hi"))] }

/-! ## Theorems -/

theorem foldl_pres {β γ : Type} (g : SpanM → β → SpanM) (f : SpanM → γ)
    (h : ∀ s b, f (g s b) = f s) :
    ∀ (l : List β) (s : SpanM), f (l.foldl g s) = f s := by
  intro l
  induction l with
  | nil => intro s; rfl
  | cons b rest ih => intro s; rw [List.foldl_cons, ih, h]

theorem setTagItem_tagFrame (L : Limits) (s : SpanM) (k : GoStr) (v : GoVal) :
    tagFrame (setTagItem L s k v) = tagFrame s := by
  simp only [setTagItem]; split <;> rfl

theorem addDefaultTag_tagFrame (L : Limits) (s : SpanM) (kvs : List (GoStr × GoVal)) :
    tagFrame (addDefaultTag L s kvs) = tagFrame s := by
  simp only [addDefaultTag]
  refine foldl_pres _ tagFrame ?_ kvs s
  intro s b
  split <;> rfl

theorem setCutOffTag_tagFrame (s : SpanM) (keys : List GoStr) :
    tagFrame (setCutOffTag s keys) = tagFrame s := rfl

theorem SetTags_tagFrame (L : Limits) (s : SpanM) (kvs : List (GoStr × GoVal)) :
    tagFrame (SetTags L s kvs) = tagFrame s := by
  simp only [SetTags]
  split
  · rfl
  · refine Eq.trans
      (foldl_pres (β := GoStr × GoVal) _ tagFrame
        (fun s b => setTagItem_tagFrame L s b.1 b.2) _ _) ?_
    have h1 := addDefaultTag_tagFrame L s kvs
    split
    · exact h1
    · rw [setCutOffTag_tagFrame]; exact h1

theorem SetTags_isFinished (L : Limits) (s : SpanM) (kvs : List (GoStr × GoVal)) :
    (SetTags L s kvs).isFinished = s.isFinished :=
  congrArg (fun t => t.2.2.2.2.2.2.2.2.2.2.2.2) (SetTags_tagFrame L s kvs)

theorem SetTags_startTime (L : Limits) (s : SpanM) (kvs : List (GoStr × GoVal)) :
    (SetTags L s kvs).startTimeNanos = s.startTimeNanos :=
  congrArg (fun t => t.2.2.2.2.2.2.2.1) (SetTags_tagFrame L s kvs)

theorem setSystemTag_isFinished (s : SpanM) :
    (setSystemTag s).isFinished = s.isFinished := rfl

theorem setSystemTag_startTime (s : SpanM) :
    (setSystemTag s).startTimeNanos = s.startTimeNanos := rfl

theorem setStatInfo_isFinished (L : Limits) (now : Int) (s : SpanM) :
    (setStatInfo L now s).isFinished = s.isFinished := by
  simp only [setStatInfo]
  split <;> split <;> simp [SetTags_isFinished]

theorem setStatInfo_duration (L : Limits) (now : Int) (s : SpanM) :
    (setStatInfo L now s).durationMicros = unixMicro now - unixMicro s.startTimeNanos := rfl

theorem Finish_of_finished (L : Limits) (now : Int) (st : FinState)
    (h : st.span.isFinished = true) : Finish L now st = st := by
  simp [Finish, h]

theorem Finish_idem (L : Limits) (now : Int) (st : FinState) :
    Finish L now (Finish L now st) = Finish L now st := by
  by_cases h : st.span.isFinished
  · rw [Finish_of_finished L now st h, Finish_of_finished L now st h]
  · apply Finish_of_finished
    simp only [Finish, h, Bool.false_eq_true, if_false]
    rw [setStatInfo_isFinished, setSystemTag_isFinished]

theorem Finish_iterate (L : Limits) (now : Int) (st : FinState) :
    ∀ n, 1 ≤ n → (Finish L now)^[n] st = Finish L now st := by
  intro n
  induction n with
  | zero => omega
  | succ m ih =>
    intro _
    cases Nat.eq_zero_or_pos m with
    | inl h0 => subst h0; simp
    | inr hm => rw [Function.iterate_succ_apply', ih hm, Finish_idem]

/-- C1: for every span and every n at least 1, calling Finish n times
hands the span to the span processor (OnSpanEnd) exactly once: the
finished flag flips at most once and every Finish call after the first
is a no-op, so exactly one OnSpanEnd delivery is appended. -/
theorem C1_finish_exports_exactly_once (L : Limits) (now : Int) (st : FinState)
    (h : st.span.isFinished = false) :
    ∀ n, 1 ≤ n →
      ((Finish L now)^[n] st).onSpanEndCalls.length = st.onSpanEndCalls.length + 1 ∧
      (Finish L now)^[n] st = Finish L now st := by
  intro n hn
  refine ⟨?_, Finish_iterate L now st n hn⟩
  rw [Finish_iterate L now st n hn]
  simp [Finish, h]

/-- Witness for C1 at a concrete unfinished span and n = 3. -/
theorem C1_witness :
    span0.isFinished = false ∧ (1 ≤ 3) ∧
      ((Finish L0 5000000000)^[3] ⟨span0, []⟩).onSpanEndCalls.length = 1 :=
  ⟨rfl, by decide,
    (C1_finish_exports_exactly_once L0 5000000000 ⟨span0, []⟩ rfl 3 (by decide)).1⟩

theorem unixMicro_natCast (m : Nat) : unixMicro (m : Int) = ((m / 1000 : Nat) : Int) := rfl

/-- C8 (amended): after the first Finish, the duration equals the finish
wall clock minus the start time, each truncated to microseconds; it is
non-negative whenever the start time does not lie in the future of the
finish time (for non-negative Unix timestamps). The original claim
asserted non-negativity for every caller-supplied start time; the
counterexample below refutes that. -/
theorem C8_duration (L : Limits) (now : Int) (st : FinState)
    (h : st.span.isFinished = false) :
    (Finish L now st).span.durationMicros =
      unixMicro now - unixMicro st.span.startTimeNanos ∧
    (0 ≤ st.span.startTimeNanos → st.span.startTimeNanos ≤ now →
      0 ≤ (Finish L now st).span.durationMicros) := by
  have hspan : (Finish L now st).span =
      setStatInfo L now (setSystemTag { st.span with isFinished := true }) := by
    simp [Finish, h]
  have hdur : (Finish L now st).span.durationMicros =
      unixMicro now - unixMicro st.span.startTimeNanos := by
    rw [hspan, setStatInfo_duration, setSystemTag_startTime]
  refine ⟨hdur, fun h0 hle => ?_⟩
  rw [hdur]
  obtain ⟨a, ha⟩ := Int.eq_ofNat_of_zero_le h0
  obtain ⟨b, hb⟩ := Int.eq_ofNat_of_zero_le (le_trans h0 hle)
  rw [ha, hb]
  rw [ha, hb] at hle
  have hab : a ≤ b := by exact_mod_cast hle
  rw [unixMicro_natCast, unixMicro_natCast]
  have : a / 1000 ≤ b / 1000 := Nat.div_le_div_right hab
  omega

/-- Witness for C8 at a concrete span finished after its start time. -/
theorem C8_witness :
    span0.isFinished = false ∧ (0 ≤ span0.startTimeNanos) ∧
      (span0.startTimeNanos ≤ 5000000000) ∧
      0 ≤ (Finish L0 5000000000 ⟨span0, []⟩).span.durationMicros :=
  ⟨rfl, by decide, by decide,
    (C8_duration L0 5000000000 ⟨span0, []⟩ rfl).2 (by decide) (by decide)⟩

/-- Counterexample to C8 as stated: a caller-supplied start time later
than the finish wall clock yields a negative duration, refuting that
the duration is non-negative for every start time. -/
theorem C8_counterexample :
    (Finish L0 1000000000
      ⟨{ span0 with startTimeNanos := 2000000000 }, []⟩).span.durationMicros < 0 := by
  decide

theorem addDefaultTag_tagMap (L : Limits) (s : SpanM) (kvs : List (GoStr × GoVal)) :
    (addDefaultTag L s kvs).tagMap = s.tagMap := by
  simp only [addDefaultTag]
  refine foldl_pres _ SpanM.tagMap ?_ kvs s
  intro s b
  split <;> rfl

theorem isTagValidDataType_false (k : GoStr) (v : GoVal) (ts : List GoType)
    (h1 : ReserveFieldTypes k = some ts) (h2 : typeOf v ∉ ts) :
    isTagValidDataType k v = false := by
  simp [isTagValidDataType, h1, h2]

/-- C4 (amended): for every key that actually appears in
ReserveFieldTypes (user_id, message_id, thread_id, input_tokens,
output_tokens, tokens, start_time_first_resp, latency_first_resp) and
every value of a runtime type outside the allowed set, SetTags on that
single pair leaves the whole tag map unchanged and raises nothing. The
error and _status_code rows of the §6 table have no entry in
ReserveFieldTypes, so they are not type-checked; the counterexample
shows set_tags storing an integer under the error key. -/
theorem C4_reserved_type_mismatch_rejected (L : Limits) (s : SpanM)
    (k : GoStr) (v : GoVal) (ts : List GoType)
    (h1 : ReserveFieldTypes k = some ts) (h2 : typeOf v ∉ ts) :
    (SetTags L s [(k, v)]).tagMap = s.tagMap := by
  have hrect : GetRectifiedMap L (addDefaultTag L s [(k, v)]) [(k, v)] = ([], [], 0) := by
    simp only [GetRectifiedMap, List.foldl_cons, List.foldl_nil]
    simp [rectifyStep, h1, isTagValidDataType_false k v ts h1 h2]
  simp only [SetTags, List.isEmpty_cons, Bool.false_eq_true, if_false, hrect,
    List.foldl_nil, List.isEmpty_nil, if_true]
  exact addDefaultTag_tagMap L s [(k, v)]

/-- Witness for C4 at the input_tokens key and a string value. -/
theorem C4_witness :
    ReserveFieldTypes keyInputTokens = some [.tInt64, .tInt, .tInt32] ∧
    typeOf (GoVal.vstr (gs "x")) ∉ [GoType.tInt64, .tInt, .tInt32] ∧
    (SetTags L0 span0 [(keyInputTokens, .vstr (gs "x"))]).tagMap = span0.tagMap :=
  ⟨by decide, by decide,
    C4_reserved_type_mismatch_rejected L0 span0 keyInputTokens (.vstr (gs "x"))
      [.tInt64, .tInt, .tInt32] (by decide) (by decide)⟩

/-- Counterexample to C4 as stated: the §6 table lists error with type
string, but ReserveFieldTypes has no error entry, so set_tags with an
integer error value is not rejected: it stores the tag (and the table
row is therefore not enforced). -/
theorem C4_counterexample :
    mapLookup (SetTags L0 span0 [(keyError, .vint 5)]).tagMap keyError = some (.vint 5) ∧
    mapLookup span0.tagMap keyError = none ∧
    ReserveFieldTypes keyError = none ∧
    typeOf (GoVal.vint 5) ≠ GoType.tString := by
  refine ⟨by decide, rfl, by decide, by decide⟩

/-- C9 (amended): the nil-checked exported methods of Span are no-ops or
zero-value getters on a nil receiver and never panic; GetRectifiedMap
on a nil receiver still returns normally when the input map is empty
(the receiver is only dereferenced in the per-entry loop); but
Span.SetBaggageItem and Span.SetMultiModalityMap, the SpanContext
getters GetSpanID, GetTraceID and GetBaggage, and GetRectifiedMap on
any input entry that survives the reserved-type check, perform no nil
check and dereference the receiver, so a nil receiver panics there (see
the counterexample); the original claim asserted safety for every
exported method including these. -/
theorem C9_nil_receiver (L : Limits) (now : Int) :
    (∀ kvs, Meth.MSetTags L none kvs = .ok none) ∧
    (∀ items, Meth.MSetBaggage L none items = .ok none) ∧
    (∀ msg, Meth.MSetError L none msg = .ok none) ∧
    (∀ c, Meth.MSetStatusCode none c = .ok none) ∧
    (∀ uid, Meth.MSetUserID L none uid = .ok none) ∧
    (∀ n, Meth.MSetInputTokens L none n = .ok none) ∧
    Meth.MFinish L now none = .ok none ∧
    Meth.MGetParentID none = .ok [] ∧
    Meth.MGetTagMap none = .ok [] ∧
    Meth.MGetDuration none = .ok 0 ∧
    Meth.MGetSpaceID none = .ok [] ∧
    Meth.MGetSpanName none = .ok [] ∧
    Meth.MGetSpanType none = .ok [] ∧
    Meth.MGetStatusCode none = .ok 0 ∧
    Meth.MUltraLargeReport none = .ok false ∧
    Meth.MGetStartTime none = .ok 0 ∧
    (∀ f, Meth.MToHeader none f = .ok (none, none)) ∧
    Meth.MGetRectifiedMap L none [] = .ok ([], [], 0) :=
  ⟨fun _ => rfl, fun _ => rfl, fun _ => rfl, fun _ => rfl, fun _ => rfl,
   fun _ => rfl, rfl, rfl, rfl, rfl, rfl, rfl, rfl, rfl, rfl, rfl, fun _ => rfl, rfl⟩

/-- Counterexample to C9 as stated: SetBaggageItem and
SetMultiModalityMap on Span, the three SpanContext getters, and
GetRectifiedMap on a map entry that survives the reserved-type check
(here an unreserved key, so the loop body dereferences the receiver),
panic on a nil receiver instead of being no-ops returning zero values. -/
theorem C9_counterexample :
    Meth.MSetBaggageItem none (gs "k") (gs "v") = .crash ∧
    Meth.MSetMultiModalityMap none keyInput = .crash ∧
    Meth.MGetRectifiedMap L0 none [(gs "k", .vstr (gs "v"))] = .crash ∧
    Meth.MGetSpanID none = .crash ∧
    Meth.MGetTraceID none = .crash ∧
    Meth.MGetBaggage none = .crash :=
  ⟨rfl, rfl, by decide, rfl, rfl, rfl⟩

theorem largeTextKey_eq (s : SpanM) (tagKey : GoStr) :
    largeTextKey s tagKey =
      s.traceID ++ gs "_" ++ s.spanID ++ gs "_" ++ tagKey ++ gs "_text_large_text" := by
  have h1 : (underscore : GoStr) = gs "_" := by decide
  have htail : (underscore ++ (fileTypeText ++ gs "_large_text") : GoStr) =
      gs "_text_large_text" := by decide
  simp only [largeTextKey, List.append_assoc, ← htail, h1]

/-- C6: for a plain-text input or output value, transferText emits
exactly one LONG_TEXT upload file keyed trace_span_key_text_large_text
carrying the full original value and truncates the in-span value to its
first TEXT_TRUNCATE_CHARS characters, exactly when ultra-large reporting
is on and the value exceeds MAX_IO_BYTES; in every other case the value
passes through unchanged with no file. -/
theorem C6_transferText (L : Limits) (s : SpanM) (src tagKey : GoStr) :
    transferText L src s tagKey =
      if s.ultraLargeReport = true ∧ L.maxIOBytes < src.length then
        (src.take L.textTruncateChars,
         some { tosKey := s.traceID ++ gs "_" ++ s.spanID ++ gs "_" ++ tagKey ++
                  gs "_text_large_text",
                data := src, uploadType := .long, tagKey := tagKey, name := [],
                fileType := fileTypeText, spaceID := s.workspaceID })
      else (src, none) := by
  simp only [transferText, truncateStringByChar, largeTextKey_eq]
  by_cases h0 : src.length = 0
  · have hnil : src = [] := List.length_eq_zero.mp h0
    subst hnil
    simp
  · by_cases hu : s.ultraLargeReport
    · by_cases hlen : L.maxIOBytes < src.length
      · simp [h0, hu, hlen]
      · simp [h0, hu, hlen]
    · simp [h0, hu]

theorem countOcc_append {α : Type} [DecidableEq α] (a : α) (l1 l2 : List α) :
    countOcc a (l1 ++ l2) = countOcc a l1 + countOcc a l2 := by
  induction l1 with
  | nil => simp [countOcc]
  | cons b rest ih => simp [countOcc, ih]; omega

theorem countOcc_take_add_drop {α : Type} [DecidableEq α] (a : α) (l : List α) (n : Nat) :
    countOcc a (l.take n) + countOcc a (l.drop n) = countOcc a l := by
  rw [← countOcc_append, List.take_append_drop]

theorem countOcc_eq_zero_of_not_mem {α : Type} [DecidableEq α] {a : α} {l : List α}
    (h : a ∉ l) : countOcc a l = 0 := by
  induction l with
  | nil => rfl
  | cons b rest ih =>
    have hb : b ≠ a := fun hba => h (hba ▸ List.mem_cons_self b rest)
    have hr : a ∉ rest := fun hm => h (List.mem_cons_of_mem b hm)
    simp [countOcc, hb, ih hr]

theorem countOcc_le_one_of_nodup {α : Type} [DecidableEq α] {l : List α}
    (h : l.Nodup) (a : α) : countOcc a l ≤ 1 := by
  induction l with
  | nil => simp [countOcc]
  | cons b rest ih =>
    rcases List.nodup_cons.mp h with ⟨hb, hrest⟩
    by_cases hba : b = a
    · subst hba
      simp [countOcc, countOcc_eq_zero_of_not_mem hb]
    · simp [countOcc, hba, ih hrest]

theorem countOcc_filterMap_some {α : Type} [DecidableEq α] (l : List (Option α)) (a : α) :
    countOcc a (l.filterMap id) = countOcc (some a) l := by
  induction l with
  | nil => rfl
  | cons o rest ih =>
    cases o with
    | none => simpa [List.filterMap_cons, countOcc] using ih
    | some b =>
      by_cases hb : b = a <;> simp [List.filterMap_cons, countOcc, ih, hb]

theorem countOcc_map_some {α : Type} [DecidableEq α] (l : List α) (a : α) :
    countOcc (some a) (l.map some) = countOcc a l := by
  induction l with
  | nil => rfl
  | cons b rest ih =>
    by_cases hb : b = a <;> simp [countOcc, ih, hb]

/-- C2: the span-queue export function (retry queue and file queue both
wired). When the ingest POST succeeds, or there is nothing to POST,
nothing goes to the span-retry queue and exactly the non-nil extracted
attachments go to the file queue, each occurrence exactly once and in
order; when a POST happens and fails, nothing goes to the file queue and
every source span of the batch goes to the span-retry queue exactly once
per batch occurrence, hence at most once for a batch without duplicate
spans. -/
theorem C2_export_spans_enqueues (env : ExtractEnv) (L : Limits) (postOK : Bool)
    (batch : List SpanM) :
    ((transferToUploadSpanAndFile env L batch).1.isEmpty = true ∨ postOK = true →
      (newExportSpansFunc env L true true postOK batch).1 = [] ∧
      (newExportSpansFunc env L true true postOK batch).2 =
        (((transferToUploadSpanAndFile env L batch).2.filterMap id).map some) ∧
      (∀ f : UploadFileM,
        countOcc (some f) (newExportSpansFunc env L true true postOK batch).2 =
          countOcc (some f) (transferToUploadSpanAndFile env L batch).2)) ∧
    ((transferToUploadSpanAndFile env L batch).1.isEmpty = false ∧ postOK = false →
      (newExportSpansFunc env L true true postOK batch).2 = [] ∧
      (newExportSpansFunc env L true true postOK batch).1 = batch ∧
      (∀ sp, countOcc sp (newExportSpansFunc env L true true postOK batch).1 =
        countOcc sp batch) ∧
      (batch.Nodup →
        ∀ sp, countOcc sp (newExportSpansFunc env L true true postOK batch).1 ≤ 1)) := by
  constructor
  · intro h
    have hok : ((transferToUploadSpanAndFile env L batch).1.isEmpty || postOK) = true := by
      rcases h with h | h <;> simp [h]
    refine ⟨?_, ?_, ?_⟩
    · simp [newExportSpansFunc, hok]
    · simp [newExportSpansFunc, hok]
    · intro f
      simp only [newExportSpansFunc, hok, Bool.true_eq_false, not_true_eq_false, if_false,
        if_true]
      rw [countOcc_map_some, countOcc_filterMap_some]
  · rintro ⟨h1, h2⟩
    have hok : ((transferToUploadSpanAndFile env L batch).1.isEmpty || postOK) = false := by
      simp [h1, h2]
    refine ⟨by simp [newExportSpansFunc, hok], by simp [newExportSpansFunc, hok], ?_, ?_⟩
    · intro sp; simp [newExportSpansFunc, hok]
    · intro hnd sp
      have : (newExportSpansFunc env L true true postOK batch).1 = batch := by
        simp [newExportSpansFunc, hok]
      rw [this]
      exact countOcc_le_one_of_nodup hnd sp

/-- Witness for C2 at a concrete batch and a failing POST. -/
theorem C2_witness :
    (transferToUploadSpanAndFile env0 L0 [span0]).1.isEmpty = false ∧
    (newExportSpansFunc env0 L0 true true false [span0]).1 = [span0] ∧
    (newExportSpansFunc env0 L0 true true false [span0]).2 = [] :=
  ⟨by decide,
    ((C2_export_spans_enqueues env0 L0 false [span0]).2 ⟨by decide, rfl⟩).2.1,
    ((C2_export_spans_enqueues env0 L0 false [span0]).2 ⟨by decide, rfl⟩).1⟩

theorem osFold_skip_none (fs : List (Option UploadFileM)) :
    ∀ acc, fs.foldl osStep acc = ((fs.filterMap id).map some).foldl osStep acc := by
  induction fs with
  | nil => intro acc; rfl
  | cons o rest ih =>
    intro acc
    cases o with
    | none => simpa [List.filterMap_cons, osStep] using ih acc
    | some f => simp [List.filterMap_cons, osStep, ih]

theorem ExportFiles_skip_none (ok : UploadFileM → Bool) :
    ∀ fs : List (Option UploadFileM),
      ExportFiles ok fs = ExportFiles ok ((fs.filterMap id).map some) := by
  intro fs
  induction fs with
  | nil => rfl
  | cons o rest ih =>
    cases o with
    | none => simpa [List.filterMap_cons, ExportFiles] using ih
    | some f =>
      by_cases hf : ok f <;> simp [List.filterMap_cons, ExportFiles, hf, ih]

/-- C10: the extracted upload-file list can contain nil entries, because
convertOutput appends the transferText result without a nil check while
convertInput checks it (shown at a concrete span whose output is short
plain text); and every downstream consumer skips nils: the file-queue
enqueue of newExportSpansFunc never enqueues a nil, transferObjectStorage
depends only on the non-nil entries, and the ExportFiles upload loop
behaves exactly as on the nil-free list, so nil attachments are never
enqueued, recorded or uploaded. -/
theorem C10_nil_attachment_flow :
    convertOutput env0 L0 0 keyOutput spanOut0 = some (gs "hi", [none], 0) ∧
    convertInput env0 L0 0 keyInput spanIn0 = some (gs "hi", [], 0) ∧
    (∀ (env : ExtractEnv) (L : Limits) (postOK : Bool) (batch : List SpanM),
      (none : Option UploadFileM) ∉ (newExportSpansFunc env L true true postOK batch).2) ∧
    (∀ (env : ExtractEnv) (fs : List (Option UploadFileM)),
      transferObjectStorage env fs =
        transferObjectStorage env ((fs.filterMap id).map some)) ∧
    (∀ (ok : UploadFileM → Bool) (fs : List (Option UploadFileM)),
      ExportFiles ok fs = ExportFiles ok ((fs.filterMap id).map some)) := by
  refine ⟨by decide, by decide, ?_, ?_, ?_⟩
  · intro env L postOK batch
    simp only [newExportSpansFunc]
    split
    · simp
    · split
      · simp [List.mem_map]
      · simp
  · intro env fs
    simp only [transferObjectStorage]
    rw [osFold_skip_none]
  · intro ok fs
    exact ExportFiles_skip_none ok fs

theorem countOcc_take_le {α : Type} [DecidableEq α] (a : α) (l : List α) (n : Nat) :
    countOcc a (l.take n) ≤ countOcc a l := by
  have := countOcc_take_add_drop a l n
  omega

theorem countOcc_drop_le {α : Type} [DecidableEq α] (a : α) (l : List α) (n : Nat) :
    countOcc a (l.drop n) ≤ countOcc a l := by
  have := countOcc_take_add_drop a l n
  omega

theorem countOcc_range' (y : Nat) :
    ∀ (n s : Nat), countOcc y (List.range' s n) = if s ≤ y ∧ y < s + n then 1 else 0 := by
  intro n
  induction n with
  | zero =>
    intro s
    have h : ¬ (s ≤ y ∧ y < s) := by omega
    simp [List.range', countOcc, h]
  | succ m ih =>
    intro s
    rw [List.range'_succ]
    by_cases hs : s = y
    · subst hs
      have hz : countOcc s (List.range' (s + 1) m) = 0 := by
        rw [ih]
        have h : ¬ (s + 1 ≤ s ∧ s < s + 1 + m) := by omega
        simp [h]
      have h2 : s ≤ s ∧ s < s + (m + 1) := by omega
      simp [countOcc, hz, h2]
    · simp only [countOcc, hs, if_false, Nat.zero_add, ih]
      have h3 : (s ≤ y ∧ y < s + (m + 1)) ↔ (s + 1 ≤ y ∧ y < s + 1 + m) := by omega
      simp [h3]

theorem applyAct_spanBatch_true (n k : Nat) (st : PState) :
    applyAct (.exportSpanBatch n k true) st =
      { st with spanQ := st.spanQ.drop n,
                posted := st.posted ++ st.spanQ.take n,
                fileQ := st.fileQ ++ List.range' st.nextFile k,
                nextFile := st.nextFile + k } := rfl

theorem applyAct_spanBatch_false (n k : Nat) (st : PState) :
    applyAct (.exportSpanBatch n k false) st =
      { st with spanQ := st.spanQ.drop n,
                posted := st.posted ++ st.spanQ.take n,
                spanRetryQ := st.spanRetryQ ++ st.spanQ.take n,
                nextFile := st.nextFile + k } := rfl

theorem applyAct_spanRetryBatch_true (n k : Nat) (st : PState) :
    applyAct (.exportSpanRetryBatch n k true) st =
      { st with spanRetryQ := st.spanRetryQ.drop n,
                posted := st.posted ++ st.spanRetryQ.take n,
                fileQ := st.fileQ ++ List.range' st.nextFile k,
                nextFile := st.nextFile + k } := rfl

theorem applyAct_spanRetryBatch_false (n k : Nat) (st : PState) :
    applyAct (.exportSpanRetryBatch n k false) st =
      { st with spanRetryQ := st.spanRetryQ.drop n,
                posted := st.posted ++ st.spanRetryQ.take n,
                nextFile := st.nextFile + k } := rfl

theorem applyAct_fileBatch_true (n i : Nat) (st : PState) :
    applyAct (.exportFileBatch n i true) st =
      { st with fileQ := st.fileQ.drop n,
                uploaded := st.uploaded ++ st.fileQ.take n } := rfl

theorem applyAct_fileBatch_false (n i : Nat) (st : PState) :
    applyAct (.exportFileBatch n i false) st =
      { st with fileQ := st.fileQ.drop n,
                uploaded := st.uploaded ++ (st.fileQ.take n).take (i + 1),
                fileRetryQ := st.fileRetryQ ++ st.fileQ.take n } := rfl

theorem applyAct_fileRetryBatch_true (n i : Nat) (st : PState) :
    applyAct (.exportFileRetryBatch n i true) st =
      { st with fileRetryQ := st.fileRetryQ.drop n,
                uploaded := st.uploaded ++ st.fileRetryQ.take n } := rfl

theorem applyAct_fileRetryBatch_false (n i : Nat) (st : PState) :
    applyAct (.exportFileRetryBatch n i false) st =
      { st with fileRetryQ := st.fileRetryQ.drop n,
                uploaded := st.uploaded ++ (st.fileRetryQ.take n).take (i + 1) } := rfl

theorem countOcc_range'_le_one (y s k : Nat) :
    countOcc y (List.range' s k) ≤ 1 := by
  rw [countOcc_range']
  split <;> omega

theorem countOcc_range'_fresh (y s k : Nat) (h : y < s ∨ s + k ≤ y) :
    countOcc y (List.range' s k) = 0 := by
  rw [countOcc_range']
  have : ¬ (s ≤ y ∧ y < s + k) := by omega
  simp [this]

theorem applyAct_pinv (a : Act) (st : PState) (h : PInv st) : PInv (applyAct a st) := by
  obtain ⟨h1, h2, h3⟩ := h
  cases a with
  | exportSpanBatch n k ok =>
    cases ok with
    | true =>
      rw [applyAct_spanBatch_true]
      refine ⟨fun x => ?_, fun y => ?_, fun y hy => ?_⟩
      · simp only [countOcc_append]
        have ht := countOcc_take_add_drop x st.spanQ n
        have := h1 x
        omega
      · simp only [countOcc_append]
        by_cases hy : st.nextFile ≤ y
        · obtain ⟨hu, hf, hfr⟩ := h3 y hy
          have := countOcc_range'_le_one y st.nextFile k
          omega
        · have := countOcc_range'_fresh y st.nextFile k (by omega)
          have := h2 y
          omega
      · have hy' : st.nextFile + k ≤ y := hy
        simp only [countOcc_append]
        obtain ⟨hu, hf, hfr⟩ := h3 y (by omega)
        have := countOcc_range'_fresh y st.nextFile k (by omega)
        omega
    | false =>
      rw [applyAct_spanBatch_false]
      refine ⟨fun x => ?_, fun y => ?_, fun y hy => ?_⟩
      · simp only [countOcc_append]
        have ht := countOcc_take_add_drop x st.spanQ n
        have := h1 x
        omega
      · exact h2 y
      · have hy' : st.nextFile + k ≤ y := hy
        exact h3 y (by omega)
  | exportSpanRetryBatch n k ok =>
    cases ok with
    | true =>
      rw [applyAct_spanRetryBatch_true]
      refine ⟨fun x => ?_, fun y => ?_, fun y hy => ?_⟩
      · simp only [countOcc_append]
        have ht := countOcc_take_add_drop x st.spanRetryQ n
        have := h1 x
        omega
      · simp only [countOcc_append]
        by_cases hy : st.nextFile ≤ y
        · obtain ⟨hu, hf, hfr⟩ := h3 y hy
          have := countOcc_range'_le_one y st.nextFile k
          omega
        · have := countOcc_range'_fresh y st.nextFile k (by omega)
          have := h2 y
          omega
      · have hy' : st.nextFile + k ≤ y := hy
        simp only [countOcc_append]
        obtain ⟨hu, hf, hfr⟩ := h3 y (by omega)
        have := countOcc_range'_fresh y st.nextFile k (by omega)
        omega
    | false =>
      rw [applyAct_spanRetryBatch_false]
      refine ⟨fun x => ?_, fun y => ?_, fun y hy => ?_⟩
      · simp only [countOcc_append]
        have ht := countOcc_take_add_drop x st.spanRetryQ n
        have := h1 x
        omega
      · exact h2 y
      · have hy' : st.nextFile + k ≤ y := hy
        exact h3 y (by omega)
  | exportFileBatch n i ok =>
    cases ok with
    | true =>
      rw [applyAct_fileBatch_true]
      refine ⟨fun x => h1 x, fun y => ?_, fun y hy => ?_⟩
      · simp only [countOcc_append]
        have ht := countOcc_take_add_drop y st.fileQ n
        have := h2 y
        omega
      · have hy' : st.nextFile ≤ y := hy
        obtain ⟨hu, hf, hfr⟩ := h3 y hy'
        simp only [countOcc_append]
        have ht := countOcc_take_add_drop y st.fileQ n
        have h4 := countOcc_take_le y st.fileQ n
        omega
    | false =>
      rw [applyAct_fileBatch_false]
      refine ⟨fun x => h1 x, fun y => ?_, fun y hy => ?_⟩
      · simp only [countOcc_append]
        have ht := countOcc_take_add_drop y st.fileQ n
        have htt := countOcc_take_le y (st.fileQ.take n) (i + 1)
        have := h2 y
        omega
      · have hy' : st.nextFile ≤ y := hy
        obtain ⟨hu, hf, hfr⟩ := h3 y hy'
        simp only [countOcc_append]
        have ht := countOcc_take_add_drop y st.fileQ n
        have htt := countOcc_take_le y (st.fileQ.take n) (i + 1)
        have h4 := countOcc_take_le y st.fileQ n
        omega
  | exportFileRetryBatch n i ok =>
    cases ok with
    | true =>
      rw [applyAct_fileRetryBatch_true]
      refine ⟨fun x => h1 x, fun y => ?_, fun y hy => ?_⟩
      · simp only [countOcc_append]
        have ht := countOcc_take_add_drop y st.fileRetryQ n
        have := h2 y
        omega
      · have hy' : st.nextFile ≤ y := hy
        obtain ⟨hu, hf, hfr⟩ := h3 y hy'
        simp only [countOcc_append]
        have ht := countOcc_take_add_drop y st.fileRetryQ n
        have h4 := countOcc_take_le y st.fileRetryQ n
        omega
    | false =>
      rw [applyAct_fileRetryBatch_false]
      refine ⟨fun x => h1 x, fun y => ?_, fun y hy => ?_⟩
      · simp only [countOcc_append]
        have ht := countOcc_take_add_drop y st.fileRetryQ n
        have htt := countOcc_take_le y (st.fileRetryQ.take n) (i + 1)
        have := h2 y
        omega
      · have hy' : st.nextFile ≤ y := hy
        obtain ⟨hu, hf, hfr⟩ := h3 y hy'
        simp only [countOcc_append]
        have ht := countOcc_take_add_drop y st.fileRetryQ n
        have htt := countOcc_take_le y (st.fileRetryQ.take n) (i + 1)
        omega

theorem PReach_pinv {st st' : PState} (hr : PReach st st') (h : PInv st) : PInv st' := by
  induction hr with
  | refl => exact h
  | tail _ hstep ih =>
    obtain ⟨a, ha⟩ := hstep
    exact ha ▸ applyAct_pinv a _ ih

/-- C3: the span-retry and file-retry queues are wired with a nil retry
target (their export functions drop failed batches, never re-enqueue),
and the span-retry export function as constructed never enqueues spans
anywhere; consequently, in every pipeline execution starting from a span
queue without duplicates, every span is POSTed at most twice and every
file is uploaded at most twice, so a persistently failing server cannot
make items cycle between queues. -/
theorem C3_retry_drop_bound :
    retryTargetOf .spanRetry = none ∧
    retryTargetOf .fileRetry = none ∧
    (∀ (env : ExtractEnv) (L : Limits) (postOK : Bool) (batch : List SpanM),
      (newExportSpansFunc env L false true postOK batch).1 = []) ∧
    (∀ (spans : List Nat) (st : PState),
      (∀ x, countOcc x spans ≤ 1) →
      PReach (pInit spans) st →
      (∀ x, countOcc x st.posted ≤ 2) ∧ (∀ y, countOcc y st.uploaded ≤ 2)) := by
  refine ⟨rfl, rfl, ?_, ?_⟩
  · intro env L postOK batch
    simp only [newExportSpansFunc]
    split <;> simp
  · intro spans st hinit hreach
    have hinv : PInv (pInit spans) := by
      refine ⟨fun x => ?_, fun y => ?_, fun y _ => ?_⟩
      · have := hinit x
        simp only [pInit, countOcc]
        omega
      · simp [pInit, countOcc]
      · simp [pInit, countOcc]
    obtain ⟨h1, h2, _⟩ := PReach_pinv hreach hinv
    exact ⟨fun x => by have := h1 x; omega, fun y => by have := h2 y; omega⟩

/-- Witness for C3: a span that fails on the span queue and again on the
span-retry queue is POSTed exactly twice and then dropped. -/
theorem C3_witness :
    (∀ x, countOcc x [7] ≤ 1) ∧
    (∀ x, countOcc x (applyAct (.exportSpanRetryBatch 1 0 false)
      (applyAct (.exportSpanBatch 1 0 false) (pInit [7]))).posted ≤ 2) := by
  have h1 : ∀ x, countOcc x [7] ≤ 1 := by
    intro x
    by_cases h : (7 : Nat) = x <;> simp [countOcc, h]
  have hreach : PReach (pInit [7])
      (applyAct (.exportSpanRetryBatch 1 0 false)
        (applyAct (.exportSpanBatch 1 0 false) (pInit [7]))) :=
    Relation.ReflTransGen.tail
      (Relation.ReflTransGen.tail (Relation.ReflTransGen.refl)
        ⟨.exportSpanBatch 1 0 false, rfl⟩)
      ⟨.exportSpanRetryBatch 1 0 false, rfl⟩
  exact ⟨h1, (C3_retry_drop_bound.2.2.2 [7] _ h1 hreach).1⟩

theorem upperHexDigit_range (n : Nat) (h : n < 16) :
    (48 ≤ upperHexDigit n ∧ upperHexDigit n ≤ 57) ∨
    (65 ≤ upperHexDigit n ∧ upperHexDigit n ≤ 70) := by
  unfold upperHexDigit; split <;> omega

theorem lowerHexDigit_range (n : Nat) (h : n < 16) :
    (48 ≤ lowerHexDigit n ∧ lowerHexDigit n ≤ 57) ∨
    (97 ≤ lowerHexDigit n ∧ lowerHexDigit n ≤ 102) := by
  unfold lowerHexDigit; split <;> omega

theorem isHexDigitByte_upperHexDigit (n : Nat) (h : n < 16) :
    isHexDigitByte (upperHexDigit n) = true := by
  rcases upperHexDigit_range n h with ⟨h1, h2⟩ | ⟨h1, h2⟩ <;>
    · simp only [isHexDigitByte, decide_eq_true_eq]
      omega

theorem hexVal_upperHexDigit (n : Nat) (h : n < 16) : hexVal (upperHexDigit n) = n := by
  unfold upperHexDigit hexVal
  by_cases h10 : n < 10
  · rw [if_pos h10, if_pos (show 48 ≤ 48 + n ∧ 48 + n ≤ 57 by omega)]
    omega
  · rw [if_neg h10, if_neg (show ¬ (48 ≤ 55 + n ∧ 55 + n ≤ 57) by omega),
      if_neg (show ¬ (97 ≤ 55 + n) by omega)]
    omega

theorem escapeByte_safe (b : Nat) (hb : b < 256) (c : Nat) (hc : c ∈ escapeByte b) :
    c ≠ 44 ∧ c ≠ 61 ∧ isSpaceByte c = false := by
  unfold escapeByte at hc
  by_cases h32 : b = 32
  · simp only [h32, if_true] at hc
    rcases List.mem_singleton.mp hc with rfl
    exact ⟨by omega, by omega, by decide⟩
  · simp only [h32, if_false] at hc
    by_cases hu : isUnreservedByte b
    · simp only [hu, if_true] at hc
      rcases List.mem_singleton.mp hc with rfl
      simp only [isUnreservedByte, decide_eq_true_eq] at hu
      refine ⟨by omega, by omega, ?_⟩
      simp only [isSpaceByte, decide_eq_false_iff_not]
      omega
    · simp only [hu, Bool.false_eq_true, if_false] at hc
      have hd1 := upperHexDigit_range (b / 16) (by omega)
      have hd2 := upperHexDigit_range (b % 16) (by omega)
      simp only [List.mem_cons, List.not_mem_nil, or_false] at hc
      rcases hc with rfl | rfl | rfl
      · exact ⟨by omega, by omega, by decide⟩
      · refine ⟨by omega, by omega, ?_⟩
        simp only [isSpaceByte, decide_eq_false_iff_not]
        omega
      · refine ⟨by omega, by omega, ?_⟩
        simp only [isSpaceByte, decide_eq_false_iff_not]
        omega

theorem queryEscape_safe (s : GoStr) (h : ∀ b ∈ s, b < 256) (c : Nat)
    (hc : c ∈ queryEscape s) : c ≠ 44 ∧ c ≠ 61 ∧ isSpaceByte c = false := by
  unfold queryEscape at hc
  rw [List.mem_flatten] at hc
  obtain ⟨l, hl, hcl⟩ := hc
  rw [List.mem_map] at hl
  obtain ⟨b, hb, rfl⟩ := hl
  exact escapeByte_safe b (h b hb) c hcl

theorem unescape_escapeByte (b : Nat) (hb : b < 256) (t : GoStr) :
    queryUnescape (escapeByte b ++ t) = (queryUnescape t).map (fun r => b :: r) := by
  unfold escapeByte
  by_cases h32 : b = 32
  · subst h32
    rw [if_pos rfl, List.singleton_append, queryUnescape.eq_def]
    simp
  · by_cases hu : isUnreservedByte b
    · have hb37 : ¬ b = 37 := by
        simp only [isUnreservedByte, decide_eq_true_eq] at hu
        omega
      have hb43 : ¬ b = 43 := by
        simp only [isUnreservedByte, decide_eq_true_eq] at hu
        omega
      rw [if_neg h32, if_pos hu, List.singleton_append, queryUnescape.eq_def]
      simp [hb37, hb43]
    · have hhex1 := isHexDigitByte_upperHexDigit (b / 16) (by omega)
      have hhex2 := isHexDigitByte_upperHexDigit (b % 16) (by omega)
      have hval : hexVal (upperHexDigit (b / 16)) * 16 + hexVal (upperHexDigit (b % 16)) = b := by
        rw [hexVal_upperHexDigit _ (by omega), hexVal_upperHexDigit _ (by omega)]
        omega
      rw [if_neg h32, if_neg hu, List.cons_append, queryUnescape.eq_def]
      simp [hhex1, hhex2, hval]

theorem queryUnescape_queryEscape (s : GoStr) (h : ∀ b ∈ s, b < 256) :
    queryUnescape (queryEscape s) = some s := by
  induction s with
  | nil =>
    rw [show queryEscape [] = [] from rfl, queryUnescape.eq_def]
  | cons b rest ih =>
    have hqe : queryEscape (b :: rest) = escapeByte b ++ queryEscape rest := by
      simp [queryEscape]
    rw [hqe, unescape_escapeByte b (h b (List.mem_cons_self b rest)),
      ih (fun x hx => h x (List.mem_cons_of_mem b hx))]
    rfl

theorem goSplit_cons_ne (sep b : Nat) (x : GoStr) (hb : ¬ b = sep) :
    goSplit sep (b :: x) =
      match goSplit sep x with
      | [] => [[b]]
      | chunk :: more => (b :: chunk) :: more := by
  simp only [goSplit, hb, if_false]

theorem goSplit_no_sep (sep : Nat) (c : GoStr) (h : sep ∉ c) : goSplit sep c = [c] := by
  induction c with
  | nil => rfl
  | cons b rest ih =>
    have hb : ¬ b = sep := fun hbs => h (hbs ▸ List.mem_cons_self b rest)
    have hr : sep ∉ rest := fun hm => h (List.mem_cons_of_mem b hm)
    simp [goSplit, hb, ih hr]

theorem goSplit_sep_append (sep : Nat) (c l : GoStr) (h : sep ∉ c) :
    goSplit sep (c ++ sep :: l) = c :: goSplit sep l := by
  induction c with
  | nil => simp [goSplit]
  | cons b rest ih =>
    have hb : ¬ b = sep := fun hbs => h (hbs ▸ List.mem_cons_self b rest)
    have hr : sep ∉ rest := fun hm => h (List.mem_cons_of_mem b hm)
    rw [List.cons_append, goSplit_cons_ne sep b _ hb, ih hr]

theorem goSplit_joinSep (sep : Nat) :
    ∀ chunks : List GoStr, chunks ≠ [] → (∀ c ∈ chunks, sep ∉ c) →
      goSplit sep (joinSep sep chunks) = chunks := by
  intro chunks
  induction chunks with
  | nil => intro hne; exact absurd rfl hne
  | cons c cs ih =>
    intro _ hmem
    cases cs with
    | nil =>
      simp only [joinSep]
      exact goSplit_no_sep sep c (hmem c (List.mem_cons_self c []))
    | cons c2 cs2 =>
      have hjoin : joinSep sep (c :: c2 :: cs2) = c ++ sep :: joinSep sep (c2 :: cs2) := rfl
      rw [hjoin, goSplit_sep_append sep c _ (hmem c (List.mem_cons_self c _)),
        ih (by simp) (fun x hx => hmem x (List.mem_cons_of_mem c hx))]

theorem dropWhile_all_false (p : Nat → Bool) (l : GoStr) (h : ∀ b ∈ l, p b = false) :
    l.dropWhile p = l := by
  induction l with
  | nil => rfl
  | cons b rest _ =>
    rw [List.dropWhile_cons, h b (List.mem_cons_self b rest)]
    simp

theorem trimSpace_id (s : GoStr) (h : ∀ b ∈ s, isSpaceByte b = false) : trimSpace s = s := by
  unfold trimSpace
  rw [dropWhile_all_false isSpaceByte s h,
    dropWhile_all_false isSpaceByte s.reverse (fun b hb => h b (List.mem_reverse.mp hb)),
    List.reverse_reverse]

theorem mapLookup_append {α : Type} (l1 l2 : List (GoStr × α)) (k : GoStr) :
    mapLookup (l1 ++ l2) k =
      match mapLookup l1 k with
      | some v => some v
      | none => mapLookup l2 k := by
  induction l1 with
  | nil => rfl
  | cons p rest ih =>
    by_cases hp : p.1 = k
    · simp [mapLookup, hp]
    · simpa [mapLookup, hp] using ih

theorem mapInsert_of_not_found {α : Type} (l : List (GoStr × α)) (k : GoStr) (v : α)
    (h : mapLookup l k = none) : mapInsert l k v = l ++ [(k, v)] := by
  induction l with
  | nil => rfl
  | cons p rest ih =>
    by_cases hp : p.1 = k
    · simp [mapLookup, hp] at h
    · simp only [mapLookup, hp, if_false] at h
      cases p with
      | mk k' v' =>
        simp only [mapInsert]
        simp only [mapLookup] at hp
        rw [if_neg hp, ih h]
        rfl

theorem parseCSMStep_good (cover : Bool) (ek ev k v : GoStr)
    (acc : List (GoStr × GoStr))
    (hek : ∀ c ∈ ek, c ≠ 61 ∧ isSpaceByte c = false)
    (hev : ∀ c ∈ ev, c ≠ 61 ∧ isSpaceByte c = false)
    (huk : queryUnescape ek = some k) (huv : queryUnescape ev = some v) :
    parseCSMStep cover (ek ++ 61 :: ev) acc =
      some (if (mapLookup acc k).isNone || cover then mapInsert acc k v else acc) := by
  have htrim : trimSpace (ek ++ 61 :: ev) = ek ++ 61 :: ev := by
    apply trimSpace_id
    intro b hb
    rcases List.mem_append.mp hb with hb | hb
    · exact (hek b hb).2
    · rcases List.mem_cons.mp hb with rfl | hb
      · decide
      · exact (hev b hb).2
  have e1 : goSplit 61 (trimSpace (ek ++ 61 :: ev)) = [ek, ev] := by
    rw [htrim, goSplit_sep_append 61 ek ev (fun hm => (hek 61 hm).1 rfl),
      goSplit_no_sep 61 ev (fun hm => (hev 61 hm).1 rfl)]
  simp only [parseCSMStep, e1]
  simp [huk, huv]

theorem parseCSMGo_good_chunk (cover : Bool) (ek ev k v : GoStr)
    (rest : List GoStr) (acc : List (GoStr × GoStr))
    (hek : ∀ c ∈ ek, c ≠ 61 ∧ isSpaceByte c = false)
    (hev : ∀ c ∈ ev, c ≠ 61 ∧ isSpaceByte c = false)
    (huk : queryUnescape ek = some k) (huv : queryUnescape ev = some v) :
    parseCSMGo cover ((ek ++ 61 :: ev) :: rest) acc =
      parseCSMGo cover rest
        (if (mapLookup acc k).isNone || cover then mapInsert acc k v else acc) := by
  simp only [parseCSMGo, parseCSMStep_good cover ek ev k v acc hek hev huk huv]

theorem parseCSMGo_escaped (m : List (GoStr × GoStr)) :
    ∀ acc : List (GoStr × GoStr),
      (∀ p ∈ m, (∀ b ∈ p.1, b < 256) ∧ (∀ b ∈ p.2, b < 256)) →
      (∀ p ∈ m, mapLookup acc p.1 = none) →
      (m.map Prod.fst).Nodup →
      parseCSMGo true
        (m.map (fun p => queryEscape p.1 ++ 61 :: queryEscape p.2)) acc = acc ++ m := by
  induction m with
  | nil => intro acc _ _ _; simp [parseCSMGo]
  | cons p m' ih =>
    intro acc hbytes hfresh hnd
    obtain ⟨hb1, hb2⟩ := hbytes p (List.mem_cons_self p m')
    rw [List.map_cons,
      parseCSMGo_good_chunk true (queryEscape p.1) (queryEscape p.2) p.1 p.2 _ acc
        (fun c hc => ⟨(queryEscape_safe p.1 hb1 c hc).2.1, (queryEscape_safe p.1 hb1 c hc).2.2⟩)
        (fun c hc => ⟨(queryEscape_safe p.2 hb2 c hc).2.1, (queryEscape_safe p.2 hb2 c hc).2.2⟩)
        (queryUnescape_queryEscape p.1 hb1) (queryUnescape_queryEscape p.2 hb2)]
    have hcond : ((mapLookup acc p.1).isNone || true) = true := by simp
    rw [hcond, if_pos rfl]
    rw [mapInsert_of_not_found acc p.1 p.2 (hfresh p (List.mem_cons_self p m'))]
    have hm'fresh : ∀ q ∈ m', mapLookup (acc ++ [(p.1, p.2)]) q.1 = none := by
      intro q hq
      rw [mapLookup_append, hfresh q (List.mem_cons_of_mem p hq)]
      have hne : ¬ p.1 = q.1 := by
        rw [List.map_cons, List.nodup_cons] at hnd
        intro he
        exact hnd.1 (he ▸ List.mem_map_of_mem Prod.fst hq)
      simp [mapLookup, hne]
    rw [ih (acc ++ [(p.1, p.2)])
      (fun q hq => hbytes q (List.mem_cons_of_mem p hq)) hm'fresh
      (by rw [List.map_cons, List.nodup_cons] at hnd; exact hnd.2)]
    simp

theorem mem_hex_ne_45 (s : GoStr) (h : isValidHexStr s = true) : (45 : Nat) ∉ s := by
  intro hmem
  have := List.all_eq_true.mp h 45 hmem
  simp only [isHexDigitByte, decide_eq_true_eq] at this
  omega

theorem hexByte_no_45 (b : Nat) (hb : b < 256) : (45 : Nat) ∉ hexByte b := by
  have hd1 := lowerHexDigit_range (b / 16) (by omega)
  have hd2 := lowerHexDigit_range (b % 16) (by omega)
  intro hmem
  simp only [hexByte, List.mem_cons, List.not_mem_nil, or_false] at hmem
  rcases hmem with he | he <;> omega

theorem fromHeaderParent_toHeaderParent (c : SpanContextM) (flags : Nat)
    (hfl : flags < 256)
    (ht32 : c.traceID.length = 32) (hth : isValidHexStr c.traceID = true)
    (htz : c.traceID ≠ zeroId 32)
    (hs16 : c.spanID.length = 16) (hsh : isValidHexStr c.spanID = true)
    (hsz : c.spanID ≠ zeroId 16) :
    fromHeaderParent (toHeaderParent c flags) = some (c.traceID, c.spanID) := by
  have hsplit : goSplit 45 (toHeaderParent c flags) =
      [hexByte GlobalTraceVersion, c.traceID, c.spanID, hexByte flags] := by
    unfold toHeaderParent
    rw [goSplit_sep_append 45 _ _ (hexByte_no_45 GlobalTraceVersion (by decide)),
      goSplit_sep_append 45 _ _ (mem_hex_ne_45 c.traceID hth),
      goSplit_sep_append 45 _ _ (mem_hex_ne_45 c.spanID hsh),
      goSplit_no_sep 45 _ (hexByte_no_45 flags hfl)]
  unfold fromHeaderParent
  rw [hsplit]
  simp [ht32, hth, htz, hs16, hsh, hsz]

/-- C5 (amended): for every span context whose trace id is a 32-byte
non-zero hex string and whose span id is a 16-byte non-zero hex string
(the form the SDK generates), and whose stored baggage is the URL-escaped
image of a byte-valued map with distinct keys, FromHeader of ToHeader
returns exactly the same trace id and span id and the unescaped baggage:
the round trip is the identity modulo the URL-escape round trip. The
original claim quantified over every span; the counterexample shows a
caller-supplied non-hex trace id (as in StartSpanOptions) does not
survive the round trip. -/
theorem C5_header_roundtrip (tid sid : GoStr) (flags : Nat) (m : List (GoStr × GoStr))
    (hfl : flags < 256)
    (ht32 : tid.length = 32) (hth : isValidHexStr tid = true) (htz : tid ≠ zeroId 32)
    (hs16 : sid.length = 16) (hsh : isValidHexStr sid = true) (hsz : sid ≠ zeroId 16)
    (hbytes : ∀ p ∈ m, (∀ b ∈ p.1, b < 256) ∧ (∀ b ∈ p.2, b < 256))
    (hnd : (m.map Prod.fst).Nodup) :
    FromHeader
      (ToHeader ⟨sid, tid, m.map (fun p => (queryEscape p.1, queryEscape p.2))⟩ flags).1
      (ToHeader ⟨sid, tid, m.map (fun p => (queryEscape p.1, queryEscape p.2))⟩ flags).2 =
      ⟨sid, tid, m⟩ := by
  have hparent := fromHeaderParent_toHeaderParent
    ⟨sid, tid, m.map (fun p => (queryEscape p.1, queryEscape p.2))⟩ flags hfl
    ht32 hth htz hs16 hsh hsz
  have hbag : fromHeaderBaggage
      (toHeaderBaggage ⟨sid, tid, m.map (fun p => (queryEscape p.1, queryEscape p.2))⟩) = m := by
    cases m with
    | nil => rfl
    | cons p m' =>
      have hchunks : (toHeaderBaggage
          ⟨sid, tid, (p :: m').map (fun q => (queryEscape q.1, queryEscape q.2))⟩) =
          joinSep 44 ((p :: m').map (fun q => queryEscape q.1 ++ 61 :: queryEscape q.2)) := by
        simp only [toHeaderBaggage, List.map_cons, List.isEmpty_cons, Bool.false_eq_true,
          if_false, List.map_map]
        rfl
      rw [hchunks]
      unfold fromHeaderBaggage parseCommaSeparatedMap
      rw [goSplit_joinSep 44 _ (by simp) ?nosep]
      case nosep =>
        intro chunk hchunk
        rw [List.mem_map] at hchunk
        obtain ⟨q, hq, rfl⟩ := hchunk
        intro hmem
        obtain ⟨hqb1, hqb2⟩ := hbytes q hq
        rcases List.mem_append.mp hmem with hm | hm
        · exact (queryEscape_safe q.1 hqb1 44 hm).1 rfl
        · rcases List.mem_cons.mp hm with he | hm
          · exact absurd he (by decide)
          · exact (queryEscape_safe q.2 hqb2 44 hm).1 rfl
      rw [parseCSMGo_escaped (p :: m') [] hbytes (fun q _ => rfl) hnd]
      rfl
  simp only [ToHeader, FromHeader, hparent, hbag]

/-- Witness for C5 at a concrete well-formed context with one baggage
entry containing a space and a unicode-free key. -/
theorem C5_witness :
    (FromHeader
      (ToHeader ⟨gs "00f067aa0ba902b7", gs "4bf92f3577b34da6a3ce929d0e0e4736",
        [(queryEscape (gs "k1"), queryEscape (gs "v 1"))]⟩ 0).1
      (ToHeader ⟨gs "00f067aa0ba902b7", gs "4bf92f3577b34da6a3ce929d0e0e4736",
        [(queryEscape (gs "k1"), queryEscape (gs "v 1"))]⟩ 0).2) =
      ⟨gs "00f067aa0ba902b7", gs "4bf92f3577b34da6a3ce929d0e0e4736",
        [(gs "k1", gs "v 1")]⟩ := by
  have h := C5_header_roundtrip (gs "4bf92f3577b34da6a3ce929d0e0e4736")
    (gs "00f067aa0ba902b7") 0 [(gs "k1", gs "v 1")]
    (by decide) (by decide) (by decide) (by decide) (by decide) (by decide) (by decide)
    (by
      intro p hp
      rw [List.mem_singleton] at hp
      subst hp
      exact ⟨by decide, by decide⟩)
    (by decide)
  simpa using h

/-- Counterexample to C5 as stated: a span whose trace id is the
caller-supplied string 1111111111111 (13 bytes, as in the repository's
own test input) does not round-trip: FromHeader rejects the malformed
parent header and returns empty ids. -/
theorem C5_counterexample :
    (FromHeader
      (ToHeader ⟨gs "00f067aa0ba902b7", gs "1111111111111", []⟩ 0).1
      (ToHeader ⟨gs "00f067aa0ba902b7", gs "1111111111111", []⟩ 0).2).traceID =
      [] := by
  decide

theorem parseCSMStep_skip (cover : Bool) (chunk : GoStr) (acc : List (GoStr × GoStr))
    (h : (goSplit 61 (trimSpace chunk)).length ≠ 2) :
    parseCSMStep cover chunk acc = some acc := by
  simp [parseCSMStep, h]

/-- C7 (amended): a malformed parent header (wrong segment count, wrong
id length, non-hex digits or all-zero ids, all of which make
fromHeaderParent fail) yields a span context with empty trace and span
ids rather than an error; baggage parsing skips every chunk that does
not split into exactly key=value and continues; a well-formed escaped
chunk is stored and parsing continues; but an entry whose key or value
fails URL-unescaping stops the parse, returning only the entries
collected so far (the original claim said all well-formed entries are
always retained; the counterexample drops a later well-formed entry). -/
theorem C7_malformed_header_tolerance :
    (∀ (hp : GoStr) (hb : Option GoStr), fromHeaderParent hp = none →
      (FromHeader (some hp) hb).traceID = [] ∧ (FromHeader (some hp) hb).spanID = []) ∧
    (∀ (cover : Bool) (chunk : GoStr) (rest : List GoStr) (acc : List (GoStr × GoStr)),
      (goSplit 61 (trimSpace chunk)).length ≠ 2 →
      parseCSMGo cover (chunk :: rest) acc = parseCSMGo cover rest acc) ∧
    (∀ (cover : Bool) (ek ev k v : GoStr) (rest : List GoStr)
        (acc : List (GoStr × GoStr)),
      (∀ c ∈ ek, c ≠ 61 ∧ isSpaceByte c = false) →
      (∀ c ∈ ev, c ≠ 61 ∧ isSpaceByte c = false) →
      queryUnescape ek = some k → queryUnescape ev = some v →
      parseCSMGo cover ((ek ++ 61 :: ev) :: rest) acc =
        parseCSMGo cover rest
          (if (mapLookup acc k).isNone || cover then mapInsert acc k v else acc)) ∧
    (∀ (cover : Bool) (chunk : GoStr) (rest : List GoStr) (acc : List (GoStr × GoStr)),
      parseCSMStep cover chunk acc = none →
      parseCSMGo cover (chunk :: rest) acc = acc) := by
  refine ⟨?_, ?_, ?_, ?_⟩
  · intro hp hb h
    cases hb <;> simp [FromHeader, h]
  · intro cover chunk rest acc h
    simp [parseCSMGo, parseCSMStep_skip cover chunk acc h]
  · intro cover ek ev k v rest acc hek hev huk huv
    exact parseCSMGo_good_chunk cover ek ev k v rest acc hek hev huk huv
  · intro cover chunk rest acc h
    simp [parseCSMGo, h]

/-- Witness for C7: a one-segment parent header is rejected with empty
ids; a baggage chunk without an equals sign is skipped; a well-formed
chunk is stored; a chunk with an invalid percent escape aborts. -/
theorem C7_witness :
    (fromHeaderParent (gs "bad") = none ∧
      (FromHeader (some (gs "bad")) none).traceID = []) ∧
    ((goSplit 61 (trimSpace (gs "novalue"))).length ≠ 2 ∧
      parseCSMGo true [gs "novalue"] [] = parseCSMGo true [] []) ∧
    (queryUnescape (gs "b") = some (gs "b") ∧
      parseCSMGo true [gs "b" ++ 61 :: gs "c"] [] =
        parseCSMGo true []
          (if (mapLookup ([] : List (GoStr × GoStr)) (gs "b")).isNone || true then
            mapInsert ([] : List (GoStr × GoStr)) (gs "b") (gs "c")
           else [])) ∧
    (parseCSMStep true (gs "a=%zz") [] = none ∧
      parseCSMGo true [gs "a=%zz", gs "b=c"] [] = []) :=
  ⟨⟨by decide, (C7_malformed_header_tolerance.1 (gs "bad") none (by decide)).1⟩,
   ⟨by decide, C7_malformed_header_tolerance.2.1 true (gs "novalue") [] [] (by decide)⟩,
   ⟨by decide, C7_malformed_header_tolerance.2.2.1 true (gs "b") (gs "c") (gs "b") (gs "c")
      [] [] (by decide) (by decide) (by decide) (by decide)⟩,
   ⟨by decide, C7_malformed_header_tolerance.2.2.2 true (gs "a=%zz") [gs "b=c"] []
      (by decide)⟩⟩

/-- Counterexample to C7 as stated: the entry b=c is well-formed (it
parses on its own), yet in the header a=%zz,b=c the unescape failure of
the first entry aborts the parse and b=c is dropped, so not every
well-formed entry is retained. -/
theorem C7_counterexample :
    fromHeaderBaggage (gs "b=c") = [(gs "b", gs "c")] ∧
    mapLookup (fromHeaderBaggage (gs "a=%zz,b=c")) (gs "b") = none :=
  ⟨by decide, by decide⟩

end Cozeloop
